import Mathlib

/-!
Shallow embedding of the first-boot seeding code (`overlord/devicestate/firstboot.go`):
the assertion importer `importAssertionsFromSeed` and the seed graph compiler
`populateStateFromSeedImpl`.  External collaborators (state get/set, assertion
database, snapstate task-set construction, filesystem) are modelled as oracle
fields of a world record; the control flow, error messages, index arithmetic and
fragment wiring are translated line by line from the Go source.

A `state.TaskSet` produced by `snapstate.InstallPath`, `snapstate.ConfigureSnap`
or `state.NewTaskSet(markSeeded)` is abstracted as a `Frag`: its operation kind,
target snap name, the install flags it was built with, and the list of task sets
(arena indices) it was told to wait for via `WaitAll`.  Fragments live in an
arena (a `List Frag`); `tsAll` and `configTss` are lists of arena indices,
mirroring the Go slices of pointers.  Out-of-range slice indexing in Go panics;
the embedding returns the distinguished error `CErr.panicIndex` there.
-/

namespace Firstboot

/-- One entry of the seed manifest (`snap.SeedSnap`). -/
structure SeedSnap where
  name : String
  file : String
  channel : String
  classic : Bool
  devMode : Bool
  unasserted : Bool
  priv : Bool
  contact : String
  deriving Repr, DecidableEq

/-- The model assertion fields the compiler reads (`asserts.Model` accessors). -/
structure Model where
  brandID : String
  model : String
  classic : Bool
  kernel : String
  gadget : String
  requiredSnaps : List String
  deriving Repr, DecidableEq

/-- Device identity record (`auth.DeviceState`), brand/model fields. -/
structure Device where
  brand : String
  model : String
  deriving Repr, DecidableEq

/-- `snapstate.Flags` fields used by the seeding code. -/
structure Flags where
  classic : Bool := false
  devMode : Bool := false
  skipConfigure : Bool := false
  required : Bool := false
  deriving Repr, DecidableEq

/-- An assertion reference (`asserts.Ref`): its type tag and the result of
`Ref.Unique()`, used for identity comparison. -/
structure ARef where
  typ : String
  unique : String
  deriving Repr, DecidableEq

/-- The type tag `asserts.ModelType` compares against. -/
def modelType : String := "model"

/-- `snap.SideInfo` fields set by `installSeedSnap`. -/
structure SideInfo where
  realName : String
  priv : Bool := false
  contact : String := ""
  deriving Repr, DecidableEq

/-- Operation kind of a task-set fragment. -/
inductive FragKind
  | install
  | configure
  | markSeeded
  deriving Repr, DecidableEq

/-- One task-graph fragment: an abstracted `state.TaskSet` with the arena
indices of the fragments it waits on (in `WaitAll` call order). -/
structure Frag where
  op : FragKind
  name : String
  flags : Flags
  waits : List Nat
  deriving Repr, DecidableEq

/-- Errors of `importAssertionsFromSeed`, one constructor per `return nil, err`
site of the Go function. -/
inductive IErr
  | nothingToDo
  | deviceErr (e : String)
  | readDirErr (e : String)
  | readAssertsErr (e : String)
  | multipleModel
  | missingModel
  | commitErr (e : String)
  | resolveErr (e : String)
  | classicModelOnAllSnaps
  | allSnapsModelOnClassic
  | setDeviceErr (e : String)
  deriving Repr, DecidableEq

/-- The Go error message of each importer error. -/
def IErr.message : IErr → String
  | .nothingToDo => "nothing to do"
  | .deviceErr e => e
  | .readDirErr e => "cannot read assert seed dir: " ++ e
  | .readAssertsErr e => "cannot read assertions: " ++ e
  | .multipleModel => "cannot add more than one model assertion"
  | .missingModel => "need a model assertion"
  | .commitErr e => e
  | .resolveErr e => "internal error: cannot find just added assertion: " ++ e
  | .classicModelOnAllSnaps => "cannot seed an all-snaps system with a classic model"
  | .allSnapsModelOnClassic => "cannot seed a classic system with an all-snaps model"
  | .setDeviceErr e => e

/-- Errors of `installSeedSnap`. -/
inductive InstErr
  | noSignatures (name : String) (file : String)
  | deriveErr (e : String)
  | installPathErr (e : String)
  deriving Repr, DecidableEq

/-- Errors of `populateStateFromSeedImpl`, one constructor per `return nil, err`
site, plus `panicIndex` for an out-of-range Go slice index (a runtime panic). -/
inductive CErr
  | getSeededErr (e : String)
  | alreadySeeded
  | importErr (e : IErr)
  | readSeedErr (e : String)
  | missingCore
  | missingKernel (name : String)
  | missingGadget (name : String)
  | installErr (e : InstErr)
  | noSnaps
  | panicIndex
  deriving Repr, DecidableEq

/-- The Go error message of each compiler error (`panicIndex` has no message:
it is a runtime panic, not a returned error). -/
def CErr.message : CErr → String
  | .getSeededErr e => e
  | .alreadySeeded => "cannot populate state: already seeded"
  | .importErr e => e.message
  | .readSeedErr e => e
  | .missingCore => "cannot proceed without seeding core"
  | .missingKernel n => "cannot find seed information for kernel snap " ++ n
  | .missingGadget n => "cannot find seed information for gadget snap " ++ n
  | .installErr (.noSignatures n f) =>
      "cannot find signatures with metadata for snap " ++ n ++ " (" ++ f ++ ")"
  | .installErr (.deriveErr e) => e
  | .installErr (.installPathErr e) => e
  | .noSnaps => "cannot proceed, no snaps to seed"
  | .panicIndex => "runtime error: index out of range"

/-- Result of `st.Get("seeded", &seeded)`. -/
inductive SeededRes
  | ok (b : Bool)
  | noState
  | err (e : String)
  deriving Repr, DecidableEq

/-- Result of `ioutil.ReadDir` on the assertions seed dir: the directory does
not exist, another read error, or a listing.  Each listed file is the outcome
of `readAsserts` on it: a read error or the stream's assertion references. -/
inductive ReadDirRes
  | notExist (e : String)
  | err (e : String)
  | ok (files : List (Except String (List ARef)))
  deriving Repr

/-- Result of `snapasserts.DeriveSideInfo`. -/
inductive DeriveRes
  | notFound
  | err (e : String)
  | ok (si : SideInfo)
  deriving Repr, DecidableEq

/-- External world of the assertion importer: the outcomes of every call it
makes to its collaborators. -/
structure IWorld where
  deviceRes : Except String Device
  assertDir : ReadDirRes
  commitRes : Except String Unit
  resolve : ARef → Except String Model
  setDeviceRes : Device → Except String Unit

/-- External world of the compiler: the importer's world plus the outcomes of
state access, manifest reading and the per-snap install collaborators. -/
structure CWorld where
  onClassic : Bool
  seededGet : SeededRes
  iw : IWorld
  seedYamlExists : Bool
  readSeedYaml : Except String (List SeedSnap)
  deriveSideInfo : SeedSnap → DeriveRes
  installPath : SideInfo → SeedSnap → Flags → Except String Unit

/-- The Go condition `modelRef != nil && modelRef.Unique() != ref.Unique()`
(line 250). -/
def conflictsWith : Option ARef → ARef → Bool
  | none, _ => false
  | some c, r => c.unique != r.unique

/-- The model-reference collection loop body over one file's references
(lines 248–255): a second model reference with a differing identity is fatal;
otherwise the reference (first- or same-identity) is retained. -/
def collectModel : Option ARef → List ARef → Except IErr (Option ARef)
  | cand, [] => .ok cand
  | cand, r :: rs =>
    if r.typ = modelType then
      if conflictsWith cand r then .error .multipleModel
      else collectModel (some r) rs
    else collectModel cand rs

/-- The file loop of the importer (lines 242–256): each file is streamed into
the batch (`readAsserts`); a read failure is fatal, otherwise its references
are scanned for model assertions. -/
def scanFiles : Option ARef → List (Except String (List ARef)) → Except IErr (Option ARef)
  | cand, [] => .ok cand
  | cand, f :: fs =>
    match f with
    | .error e => .error (.readAssertsErr e)
    | .ok refs =>
      match collectModel cand refs with
      | .error e => .error e
      | .ok cand2 => scanFiles cand2 fs

/-- The references of model kind among a stream of assertion references. -/
def modelRefs (refs : List ARef) : List ARef :=
  refs.filter fun r => r.typ == modelType

/-- `importAssertionsFromSeed` (lines 222–291).  Returns the importer outcome
together with the list of successfully persisted device-identity writes
(`auth.SetDevice` calls that succeeded). -/
def importAssertionsFromSeed (onClassic : Bool) (w : IWorld) :
    Except IErr Model × List Device :=
  match w.deviceRes with
  | .error e => (.error (.deviceErr e), [])
  | .ok device =>
    match w.assertDir with
    | .notExist e =>
      if onClassic then (.error .nothingToDo, [])
      else (.error (.readDirErr e), [])
    | .err e => (.error (.readDirErr e), [])
    | .ok files =>
      match scanFiles none files with
      | .error e => (.error e, [])
      | .ok none => (.error .missingModel, [])
      | .ok (some modelRef) =>
        match w.commitRes with
        | .error e => (.error (.commitErr e), [])
        | .ok _ =>
          match w.resolve modelRef with
          | .error e => (.error (.resolveErr e), [])
          | .ok modelAssertion =>
            if onClassic ≠ modelAssertion.classic then
              (if modelAssertion.classic then (.error .classicModelOnAllSnaps, [])
               else (.error .allSnapsModelOnClassic, []))
            else
              match w.setDeviceRes
                  { device with brand := modelAssertion.brandID
                                model := modelAssertion.model } with
              | .error e => (.error (.setDeviceErr e), [])
              | .ok _ =>
                (.ok modelAssertion,
                  [{ device with brand := modelAssertion.brandID
                                 model := modelAssertion.model }])

/-- Lines 45–50: the seed entry's `Classic`/`DevMode` flags are promoted into
the install flags. -/
def promoteFlags (sn : SeedSnap) (flags : Flags) : Flags :=
  let f1 := if sn.classic then { flags with classic := true } else flags
  if sn.devMode then { f1 with devMode := true } else f1

/-- Lines 54–68: side info comes from the entry's declared name when
unasserted, otherwise it is derived from the assertion database with `Private`
and `Contact` copied from the entry. -/
def sideInfoFor (w : CWorld) (sn : SeedSnap) : Except InstErr SideInfo :=
  if sn.unasserted then .ok { realName := sn.name }
  else
    match w.deriveSideInfo sn with
    | .notFound => .error (.noSignatures sn.name sn.file)
    | .err e => .error (.deriveErr e)
    | .ok si => .ok { si with priv := sn.priv, contact := sn.contact }

/-- `installSeedSnap` (lines 44–71): flag promotion from the seed entry, side
info derivation, and the opaque `snapstate.InstallPath` call.  On success the
produced task set is abstracted as an install fragment (waits wired by the
caller). -/
def installSeedSnap (w : CWorld) (sn : SeedSnap) (flags : Flags) : Except InstErr Frag :=
  match sideInfoFor w sn with
  | .error e => .error e
  | .ok si =>
    match w.installPath si sn (promoteFlags sn flags) with
    | .error e => .error (.installPathErr e)
    | .ok _ => .ok ⟨.install, sn.name, promoteFlags sn flags, []⟩

/-- The `seeding` map (lines 115–118): `seeding[sn.Name] = sn` over the list,
later entries overwriting earlier ones. -/
def lookupSeeding (snaps : List SeedSnap) (n : String) : Option SeedSnap :=
  snaps.foldl (fun acc sn => if sn.name = n then some sn else acc) none

/-- Mutable build state while wiring the graph: the fragment arena and the
`tsAll`, `configTss` and `alreadySeeded` accumulators (indices / names). -/
structure BuildSt where
  arena : List Frag
  tsAll : List Nat
  configTss : List Nat
  already : List String
  deriving Repr, DecidableEq

/-- `WaitAll` on an already-created task set: append a predecessor to the
fragment at arena index `i`. -/
def arenaWait : List Frag → Nat → Nat → List Frag
  | [], _, _ => []
  | f :: fs, 0, pred => { f with waits := f.waits ++ [pred] } :: fs
  | f :: fs, i + 1, pred => f :: arenaWait fs i pred

/-- A build-phase error carries the fragments constructed before the failure
(task sets already created when the compiler aborts). -/
abbrev BuildRes (α : Type) := Except (CErr × List Frag) α

/-- Lines 124–137: if any snaps are to be seeded, `core` must be present; it is
installed with configuration suppressed and its configure task set queued. -/
def corePhase (w : CWorld) (snaps : List SeedSnap) : BuildRes BuildSt :=
  if snaps.isEmpty then .ok ⟨[], [], [], []⟩
  else
    match lookupSeeding snaps "core" with
    | none => .error (.missingCore, [])
    | some coreSeed =>
      match installSeedSnap w coreSeed { skipConfigure := true } with
      | .error e => .error (.installErr e, [])
      | .ok f =>
        .ok ⟨[f, ⟨.configure, "core", {}, []⟩], [0], [1], ["core"]⟩

/-- Lines 139–156 (with `last` tracked explicitly): install the kernel named by
the model, waiting on `tsAll[last]`; queue its configure task set waiting on
`configTss[last]`. -/
def kernelPhase (w : CWorld) (model : Model) (snaps : List SeedSnap)
    (st : BuildSt) (last : Nat) : BuildRes (BuildSt × Nat) :=
  if model.kernel = "" then .ok (st, last)
  else
    match lookupSeeding snaps model.kernel with
    | none => .error (.missingKernel model.kernel, st.arena)
    | some kernelSeed =>
      match installSeedSnap w kernelSeed { skipConfigure := true } with
      | .error e => .error (.installErr e, st.arena)
      | .ok f =>
        match st.tsAll.get? last with
        | none => .error (.panicIndex, st.arena)
        | some pred =>
          let fIdx := st.arena.length
          let a1 := st.arena ++ [{ f with waits := [pred] }]
          match st.configTss.get? last with
          | none => .error (.panicIndex, a1)
          | some cpred =>
            let cIdx := a1.length
            .ok (⟨a1 ++ [⟨.configure, model.kernel, {}, [cpred]⟩],
                  st.tsAll ++ [fIdx], st.configTss ++ [cIdx],
                  st.already ++ [model.kernel]⟩, last + 1)

/-- Lines 158–174: the gadget named by the model, same pattern as the kernel. -/
def gadgetPhase (w : CWorld) (model : Model) (snaps : List SeedSnap)
    (st : BuildSt) (last : Nat) : BuildRes (BuildSt × Nat) :=
  if model.gadget = "" then .ok (st, last)
  else
    match lookupSeeding snaps model.gadget with
    | none => .error (.missingGadget model.gadget, st.arena)
    | some gadgetSeed =>
      match installSeedSnap w gadgetSeed { skipConfigure := true } with
      | .error e => .error (.installErr e, st.arena)
      | .ok f =>
        match st.tsAll.get? last with
        | none => .error (.panicIndex, st.arena)
        | some pred =>
          let fIdx := st.arena.length
          let a1 := st.arena ++ [{ f with waits := [pred] }]
          match st.configTss.get? last with
          | none => .error (.panicIndex, a1)
          | some cpred =>
            let cIdx := a1.length
            .ok (⟨a1 ++ [⟨.configure, model.gadget, {}, [cpred]⟩],
                  st.tsAll ++ [fIdx], st.configTss ++ [cIdx],
                  st.already ++ [model.gadget]⟩, last + 1)

/-- Lines 176–180: `configTss[0].WaitAll(tsAll[last])`, then the configure
chain is appended to `tsAll` as a block and `last` advanced past it.  Both
indexing operations panic when out of range. -/
def splicePhase (st : BuildSt) (last : Nat) : BuildRes (BuildSt × Nat) :=
  match st.configTss.get? 0 with
  | none => .error (.panicIndex, st.arena)
  | some c0 =>
    match st.tsAll.get? last with
    | none => .error (.panicIndex, st.arena)
    | some pred =>
      .ok (⟨arenaWait st.arena c0 pred, st.tsAll ++ st.configTss,
            st.configTss, st.already⟩, last + st.configTss.length)

/-- Lines 187–190: the flags of a trailing install — `Required` exactly when
the model's required set contains the name. -/
def trailingFlags (required : String → Bool) (n : String) : Flags :=
  if required n then { required := true } else {}

/-- Lines 192–199, one iteration: install the entry, wait on `tsAll[last]`,
append to the chain and advance `last`. -/
def trailingStep (w : CWorld) (required : String → Bool) (sn : SeedSnap)
    (a : List Frag) (tsAll : List Nat) (last : Nat) :
    BuildRes (List Frag × List Nat × Nat) :=
  match installSeedSnap w sn (trailingFlags required sn.name) with
  | .error e => .error (.installErr e, a)
  | .ok f =>
    match tsAll.get? last with
    | none => .error (.panicIndex, a)
    | some pred =>
      .ok (a ++ [{ f with waits := [pred] }], tsAll ++ [a.length], last + 1)

/-- Lines 182–200: every remaining manifest entry, in manifest order, skipping
names already seeded, each waiting on `tsAll[last]`; entries in the model's
required set get the `Required` flag. -/
def trailingPhase (w : CWorld) (required : String → Bool) (already : List String) :
    List SeedSnap → List Frag → List Nat → Nat → BuildRes (List Frag × List Nat × Nat)
  | [], a, tsAll, last => .ok (a, tsAll, last)
  | sn :: rest, a, tsAll, last =>
    if already.contains sn.name then
      trailingPhase w required already rest a tsAll last
    else
      match trailingStep w required sn a tsAll last with
      | .error e => .error e
      | .ok (a2, ts2, l2) => trailingPhase w required already rest a2 ts2 l2

/-- Lines 202–208: the empty-graph check, then the mark-seeded task set waiting
on the last fragment of the chain. -/
def finishPhase (a : List Frag) (tsAll : List Nat) : BuildRes (List Frag × List Nat) :=
  if tsAll.isEmpty then .error (.noSnaps, a)
  else
    match tsAll.get? (tsAll.length - 1) with
    | none => .error (.panicIndex, a)
    | some lastTs =>
      .ok (a ++ [⟨.markSeeded, "", {}, [lastTs]⟩], tsAll ++ [a.length])

/-- The required-set membership test computed from the model (lines 106–113). -/
def requiredSet (model : Model) (n : String) : Bool :=
  model.requiredSnaps.contains n

/-- The graph-construction part of `populateStateFromSeedImpl` (lines 106–210),
given the validated model and the parsed manifest. -/
def buildGraph (w : CWorld) (model : Model) (snaps : List SeedSnap) :
    BuildRes (List Frag × List Nat) :=
  match corePhase w snaps with
  | .error e => .error e
  | .ok st0 =>
    match kernelPhase w model snaps st0 0 with
    | .error e => .error e
    | .ok (st1, last1) =>
      match gadgetPhase w model snaps st1 last1 with
      | .error e => .error e
      | .ok (st2, last2) =>
        match splicePhase st2 last2 with
        | .error e => .error e
        | .ok (st3, last3) =>
          match trailingPhase w (requiredSet model) st3.already snaps
              st3.arena st3.tsAll last3 with
          | .error e => .error e
          | .ok (a4, tsAll4, _) => finishPhase a4 tsAll4

/-- The graph containing only the mark-seeded task set (`[]*state.TaskSet{
state.NewTaskSet(markSeeded)}`). -/
def markSeededOnly : List Frag × List Nat := ([⟨.markSeeded, "", {}, []⟩], [0])

/-- Lines 84–210 of `populateStateFromSeedImpl`: everything after the seeded
guard (the mark-seeded task creation, the assertion import, the short-circuit
returns and the graph construction). -/
def populateAfterGuard (w : CWorld) :
    Except (CErr × List Frag) (List Frag × List Nat) × List Device :=
  match importAssertionsFromSeed w.onClassic w.iw with
  | (.error .nothingToDo, ws) => (.ok markSeededOnly, ws)
  | (.error e, ws) => (.error (.importErr e, []), ws)
  | (.ok model, ws) =>
    if w.onClassic && !w.seedYamlExists then (.ok markSeededOnly, ws)
    else
      match w.readSeedYaml with
      | .error e => (.error (.readSeedErr e, []), ws)
      | .ok snaps => (buildGraph w model snaps, ws)

/-- `populateStateFromSeedImpl` (lines 73–211).  Returns the compiler outcome
(on failure: the error and the fragments constructed before it) and the list of
persisted device-identity writes.  `st.Get("seeded")` leaves `seeded` false on
`ErrNoState`; any other get error is returned. -/
def populateStateFromSeedImpl (w : CWorld) :
    Except (CErr × List Frag) (List Frag × List Nat) × List Device :=
  match w.seededGet with
  | .err e => (.error (.getSeededErr e, []), [])
  | .ok true => (.error (.alreadySeeded, []), [])
  | .ok false => populateAfterGuard w
  | .noState => populateAfterGuard w

/-! ### Concrete sample worlds, used to instantiate the theorems below -/

/-- A plain seed entry with the given name and no special flags. -/
def sampleSnap (n : String) : SeedSnap :=
  ⟨n, n ++ ".snap", "stable", false, false, false, false, ""⟩

/-- A model assertion with the given kernel/gadget/required list and build
mode. -/
def sampleModel (kernel gadget : String) (req : List String) (classic : Bool) : Model :=
  ⟨"my-brand", "my-model", classic, kernel, gadget, req⟩

/-- Importer world whose collaborators all succeed: one assertion file holding
one model assertion, resolving to `m`. -/
def sampleIW (m : Model) : IWorld :=
  { deviceRes := .ok ⟨"", ""⟩
    assertDir := .ok [.ok [⟨modelType, "u1"⟩]]
    commitRes := .ok ()
    resolve := fun _ => .ok m
    setDeviceRes := fun _ => .ok () }

/-- Compiler world whose collaborators all succeed, seeding `snaps` against
model `m`. -/
def sampleCW (onCl : Bool) (m : Model) (snaps : List SeedSnap) : CWorld :=
  { onClassic := onCl
    seededGet := .noState
    iw := sampleIW m
    seedYamlExists := true
    readSeedYaml := .ok snaps
    deriveSideInfo := fun _ => .ok ⟨"x", false, ""⟩
    installPath := fun _ _ _ => .ok () }

/-- A name installed by one of the three foundational blocks: `core`, the
model's kernel (when named), or the model's gadget (when named). -/
def foundationalName (m : Model) (n : String) : Prop :=
  n = "core" ∨ (m.kernel ≠ "" ∧ n = m.kernel) ∨ (m.gadget ≠ "" ∧ n = m.gadget)

instance (m : Model) (n : String) : Decidable (foundationalName m n) := by
  unfold foundationalName
  infer_instance

/-- The flag discipline of install fragments: foundational installs carry
`SkipConfigure` and never `Required` (even when the model requires the name);
trailing installs carry `Required` exactly when the model's required set
contains the name, and never `SkipConfigure`. -/
def installFlagsOK (m : Model) (f : Frag) : Prop :=
  f.op = .install →
    (foundationalName m f.name →
       f.flags.required = false ∧ f.flags.skipConfigure = true) ∧
    (¬ foundationalName m f.name →
       f.flags.required = requiredSet m f.name ∧ f.flags.skipConfigure = false)

instance (m : Model) (f : Frag) : Decidable (installFlagsOK m f) := by
  unfold installFlagsOK
  infer_instance

/-! ### Helper lemmas about the seeding map and install fragments -/

theorem lookupSeeding_foldl_name (n : String) :
    ∀ (snaps : List SeedSnap) (acc : Option SeedSnap),
      (∀ s, acc = some s → s.name = n) →
      ∀ sn, snaps.foldl (fun a s => if s.name = n then some s else a) acc = some sn →
        sn.name = n := by
  intro snaps
  induction snaps with
  | nil =>
    intro acc hacc sn h
    exact hacc sn (by simpa using h)
  | cons s rest ih =>
    intro acc hacc sn h
    simp only [List.foldl_cons] at h
    by_cases hs : s.name = n
    · refine ih _ ?_ sn (by simpa [hs] using h)
      intro s' hs'
      simp only [hs, if_pos] at hs'
      cases hs'
      exact hs
    · exact ih _ (by simpa [hs] using hacc) sn (by simpa [hs] using h)

/-- A hit in the seeding map carries the looked-up name. -/
theorem lookupSeeding_name {snaps : List SeedSnap} {n : String} {sn : SeedSnap}
    (h : lookupSeeding snaps n = some sn) : sn.name = n :=
  lookupSeeding_foldl_name n snaps none (by intro s hs; cases hs) sn h

theorem lookupSeeding_foldl_none (n : String) :
    ∀ (snaps : List SeedSnap), (∀ sn ∈ snaps, sn.name ≠ n) →
      snaps.foldl (fun a s => if s.name = n then some s else a) none = none := by
  intro snaps
  induction snaps with
  | nil => intro _; simp
  | cons s rest ih =>
    intro h
    have hs : s.name ≠ n := h s (by simp)
    simp only [List.foldl_cons, if_neg hs]
    exact ih (fun sn hm => h sn (by simp [hm]))

/-- A name missing from the manifest is missing from the seeding map. -/
theorem lookupSeeding_none {snaps : List SeedSnap} {n : String}
    (h : ∀ sn ∈ snaps, sn.name ≠ n) : lookupSeeding snaps n = none :=
  lookupSeeding_foldl_none n snaps h

theorem promoteFlags_skipConfigure (sn : SeedSnap) (fl : Flags) :
    (promoteFlags sn fl).skipConfigure = fl.skipConfigure := by
  unfold promoteFlags
  by_cases hc : sn.classic <;> by_cases hd : sn.devMode <;> simp [hc, hd]

theorem promoteFlags_required (sn : SeedSnap) (fl : Flags) :
    (promoteFlags sn fl).required = fl.required := by
  unfold promoteFlags
  by_cases hc : sn.classic <;> by_cases hd : sn.devMode <;> simp [hc, hd]

/-- A successful `installSeedSnap` yields an install fragment for the entry's
name, with no waits yet, and with the `SkipConfigure`/`Required` flags it was
given (only `Classic`/`DevMode` are promoted from the entry). -/
theorem installSeedSnap_ok_shape {w : CWorld} {sn : SeedSnap} {fl : Flags} {f : Frag}
    (h : installSeedSnap w sn fl = .ok f) :
    f.op = .install ∧ f.name = sn.name ∧ f.waits = [] ∧
      f.flags.skipConfigure = fl.skipConfigure ∧ f.flags.required = fl.required := by
  unfold installSeedSnap at h
  split at h
  · cases h
  · split at h
    · cases h
    · cases h
      refine ⟨rfl, rfl, rfl, ?_, ?_⟩
      · exact promoteFlags_skipConfigure sn fl
      · exact promoteFlags_required sn fl

/-! ### Helper lemmas about the model-reference scan -/

/-- The only error the collection loop itself raises is the
multiple-model-assertion conflict. -/
theorem collectModel_error_multiple :
    ∀ (refs : List ARef) (cand : Option ARef) (e : IErr),
      collectModel cand refs = .error e → e = .multipleModel := by
  intro refs
  induction refs with
  | nil => intro cand e h; cases h
  | cons r rs ih =>
    intro cand e h
    rw [collectModel] at h
    by_cases ht : r.typ = modelType
    · by_cases hcf : conflictsWith cand r
      · simp [ht, hcf] at h
        simp [h]
      · simp [ht, hcf] at h
        exact ih _ _ h
    · simp [ht] at h
      exact ih _ _ h

/-- If the collection loop succeeds, every model-kind reference it scanned (and
the incoming candidate) share one identity. -/
theorem collectModel_ok_uniform :
    ∀ (refs : List ARef) (cand res : Option ARef),
      collectModel cand refs = .ok res →
      ∃ u, (∀ c, cand = some c → c.unique = u) ∧
        (∀ r ∈ refs, r.typ = modelType → r.unique = u) := by
  intro refs
  induction refs with
  | nil =>
    intro cand res _
    rcases cand with _ | c
    · exact ⟨"", by simp, by simp⟩
    · refine ⟨c.unique, ?_, by simp⟩
      intro c' hc'; cases hc'; rfl
  | cons r rs ih =>
    intro cand res h
    rw [collectModel] at h
    by_cases ht : r.typ = modelType
    · by_cases hcf : conflictsWith cand r
      · simp [ht, hcf] at h
      · simp [ht, hcf] at h
        obtain ⟨u, hc, hr⟩ := ih (some r) res h
        have hru : r.unique = u := hc r rfl
        refine ⟨u, ?_, ?_⟩
        · intro c' hc'
          subst hc'
          have hne : (c'.unique != r.unique) = false := by
            simpa [conflictsWith] using hcf
          have hcu : c'.unique = r.unique := by simpa using hne
          rw [hcu, hru]
        · intro r' hm ht'
          rcases List.mem_cons.mp hm with hm | hm
          · subst hm; exact hru
          · exact hr r' hm ht'
    · simp [ht] at h
      obtain ⟨u, hc, hr⟩ := ih cand res h
      refine ⟨u, hc, ?_⟩
      intro r' hm ht'
      rcases List.mem_cons.mp hm with hm | hm
      · subst hm; exact absurd ht' ht
      · exact hr r' hm ht'

/-- If every scanned model-kind reference (and the incoming candidate) share
one identity, the collection loop succeeds; the resulting candidate is a
model-kind reference of that identity, and is absent only when nothing
model-kind was ever seen. -/
theorem collectModel_same (u : String) :
    ∀ (refs : List ARef) (cand : Option ARef),
      (∀ r ∈ refs, r.typ = modelType → r.unique = u) →
      (∀ c, cand = some c → c.unique = u ∧ c.typ = modelType) →
      ∃ res, collectModel cand refs = .ok res ∧
        (∀ c, res = some c → c.unique = u ∧ c.typ = modelType) ∧
        (res = none → cand = none ∧ ∀ r ∈ refs, r.typ ≠ modelType) := by
  intro refs
  induction refs with
  | nil =>
    intro cand hrefs hcand
    exact ⟨cand, rfl, hcand, by intro h; exact ⟨h, by simp⟩⟩
  | cons r rs ih =>
    intro cand hrefs hcand
    rw [collectModel]
    by_cases ht : r.typ = modelType
    · have hru : r.unique = u := hrefs r (by simp) ht
      have hnext : ∀ c, some r = some c → c.unique = u ∧ c.typ = modelType := by
        intro c hc; cases hc; exact ⟨hru, ht⟩
      have hrs : ∀ x ∈ rs, x.typ = modelType → x.unique = u := by
        intro x hm hx; exact hrefs x (by simp [hm]) hx
      have hcf : conflictsWith cand r = false := by
        rcases cand with _ | c
        · rfl
        · have hcu : c.unique = u := (hcand c rfl).1
          simp [conflictsWith, hcu, hru]
      simp only [ht, if_true, hcf, Bool.false_eq_true, if_false, ite_true]
      obtain ⟨res, hres, hprop, hnone⟩ := ih (some r) hrs hnext
      refine ⟨res, hres, hprop, ?_⟩
      intro h
      exact absurd ((hnone h).1) (by simp)
    · simp only [ht, if_false, ite_false]
      have hrs : ∀ x ∈ rs, x.typ = modelType → x.unique = u := by
        intro x hm hx; exact hrefs x (by simp [hm]) hx
      obtain ⟨res, hres, hprop, hnone⟩ := ih cand hrs hcand
      refine ⟨res, hres, hprop, ?_⟩
      intro h
      refine ⟨(hnone h).1, ?_⟩
      intro x hm
      rcases List.mem_cons.mp hm with hm | hm
      · subst hm; exact ht
      · exact (hnone h).2 x hm

/-- The collection loop distributes over list append. -/
theorem collectModel_append :
    ∀ (xs ys : List ARef) (cand : Option ARef),
      collectModel cand (xs ++ ys) =
        match collectModel cand xs with
        | .error e => .error e
        | .ok c => collectModel c ys := by
  intro xs
  induction xs with
  | nil => intro ys cand; rfl
  | cons r rs ih =>
    intro ys cand
    rw [List.cons_append, collectModel]
    conv_rhs => rw [collectModel]
    by_cases ht : r.typ = modelType
    · by_cases hcf : conflictsWith cand r
      · simp [ht, hcf]
      · simp only [ht, ite_true, hcf, Bool.false_eq_true, ite_false]
        exact ih ys (some r)
    · simp only [ht, ite_false]
      exact ih ys cand

/-- Scanning a directory of readable files is the collection loop over the
concatenation of their reference streams. -/
theorem scanFiles_map_ok :
    ∀ (files : List (List ARef)) (cand : Option ARef),
      scanFiles cand (files.map Except.ok) = collectModel cand files.flatten := by
  intro files
  induction files with
  | nil => intro cand; rfl
  | cons f fs ih =>
    intro cand
    rw [List.map_cons, scanFiles, List.flatten_cons, collectModel_append]
    cases hc : collectModel cand f with
    | error e => rfl
    | ok c2 => exact ih c2

/-! ### Error shape of the graph-building phases -/

theorem corePhase_ne_already (w : CWorld) (s : List SeedSnap) (t : List Frag) :
    corePhase w s ≠ .error (.alreadySeeded, t) := by
  unfold corePhase
  repeat' split
  all_goals simp

theorem kernelPhase_ne_already (w : CWorld) (m : Model) (s : List SeedSnap)
    (st : BuildSt) (last : Nat) (t : List Frag) :
    kernelPhase w m s st last ≠ .error (.alreadySeeded, t) := by
  unfold kernelPhase
  repeat' split
  all_goals simp

theorem gadgetPhase_ne_already (w : CWorld) (m : Model) (s : List SeedSnap)
    (st : BuildSt) (last : Nat) (t : List Frag) :
    gadgetPhase w m s st last ≠ .error (.alreadySeeded, t) := by
  unfold gadgetPhase
  repeat' split
  all_goals simp

theorem splicePhase_ne_already (st : BuildSt) (last : Nat) (t : List Frag) :
    splicePhase st last ≠ .error (.alreadySeeded, t) := by
  unfold splicePhase
  repeat' split
  all_goals simp

theorem trailingStep_ne_already (w : CWorld) (req : String → Bool)
    (sn : SeedSnap) (a : List Frag) (ts : List Nat) (last : Nat) (t : List Frag) :
    trailingStep w req sn a ts last ≠ .error (.alreadySeeded, t) := by
  unfold trailingStep
  repeat' split
  all_goals simp

theorem trailingPhase_ne_already (w : CWorld) (req : String → Bool)
    (alr : List String) :
    ∀ (snaps : List SeedSnap) (a : List Frag) (ts : List Nat) (last : Nat)
      (t : List Frag),
      trailingPhase w req alr snaps a ts last ≠ .error (.alreadySeeded, t) := by
  intro snaps
  induction snaps with
  | nil => intro a ts last t; rw [trailingPhase]; simp
  | cons sn rest ih =>
    intro a ts last t
    rw [trailingPhase]
    split
    · exact ih _ _ _ _
    · cases hstep : trailingStep w req sn a ts last with
      | error e =>
        simp only [hstep]
        intro heq
        injection heq with h2
        subst h2
        exact trailingStep_ne_already w req sn a ts last t hstep
      | ok p =>
        simp only [hstep]
        obtain ⟨a2, ts2, l2⟩ := p
        exact ih _ _ _ _

theorem finishPhase_ne_already (a : List Frag) (ts : List Nat) (t : List Frag) :
    finishPhase a ts ≠ .error (.alreadySeeded, t) := by
  unfold finishPhase
  repeat' split
  all_goals simp

/-- The ordering algorithm itself can never raise the already-seeded error:
that error has a single production site, before any graph work. -/
theorem buildGraph_ne_already (w : CWorld) (m : Model) (s : List SeedSnap)
    (t : List Frag) : buildGraph w m s ≠ .error (.alreadySeeded, t) := by
  unfold buildGraph
  cases hc : corePhase w s with
  | error e =>
    intro heq
    injection heq with h2
    subst h2
    exact corePhase_ne_already w s t hc
  | ok st0 =>
    dsimp only
    cases hk : kernelPhase w m s st0 0 with
    | error e =>
      intro heq
      injection heq with h2
      subst h2
      exact kernelPhase_ne_already w m s st0 0 t hk
    | ok p1 =>
      obtain ⟨st1, last1⟩ := p1
      dsimp only
      cases hg : gadgetPhase w m s st1 last1 with
      | error e =>
        intro heq
        injection heq with h2
        subst h2
        exact gadgetPhase_ne_already w m s st1 last1 t hg
      | ok p2 =>
        obtain ⟨st2, last2⟩ := p2
        dsimp only
        cases hs : splicePhase st2 last2 with
        | error e =>
          intro heq
          injection heq with h2
          subst h2
          exact splicePhase_ne_already st2 last2 t hs
        | ok p3 =>
          obtain ⟨st3, last3⟩ := p3
          dsimp only
          cases htr : trailingPhase w (requiredSet m) st3.already s st3.arena
              st3.tsAll last3 with
          | error e =>
            intro heq
            injection heq with h2
            subst h2
            exact trailingPhase_ne_already w (requiredSet m) st3.already s
              st3.arena st3.tsAll last3 t htr
          | ok p4 =>
            obtain ⟨a4, tsAll4, l4⟩ := p4
            dsimp only
            exact finishPhase_ne_already a4 tsAll4 t

/-! ### Reduction lemmas for the compiler pipeline -/

theorem populate_guard_pass {w : CWorld}
    (h : w.seededGet = .ok false ∨ w.seededGet = .noState) :
    populateStateFromSeedImpl w = populateAfterGuard w := by
  rcases h with h | h <;> (unfold populateStateFromSeedImpl; rw [h])

theorem afterGuard_nothingToDo {w : CWorld} {ws : List Device}
    (himp : importAssertionsFromSeed w.onClassic w.iw = (.error .nothingToDo, ws)) :
    populateAfterGuard w = (.ok markSeededOnly, ws) := by
  unfold populateAfterGuard
  rw [himp]

theorem afterGuard_import_error {w : CWorld} {e : IErr} {ws : List Device}
    (he : e ≠ .nothingToDo)
    (himp : importAssertionsFromSeed w.onClassic w.iw = (.error e, ws)) :
    populateAfterGuard w = (.error (.importErr e, []), ws) := by
  unfold populateAfterGuard
  rw [himp]
  cases e <;> first | exact absurd rfl he | rfl

theorem afterGuard_import_ok {w : CWorld} {m : Model} {ws : List Device}
    (himp : importAssertionsFromSeed w.onClassic w.iw = (.ok m, ws)) :
    populateAfterGuard w =
      (if w.onClassic && !w.seedYamlExists then (.ok markSeededOnly, ws)
       else
         match w.readSeedYaml with
         | .error e => (.error (.readSeedErr e, []), ws)
         | .ok snaps => (buildGraph w m snaps, ws)) := by
  unfold populateAfterGuard
  rw [himp]

/-- When the guard passes, the import succeeds and a manifest parses, the
compiler's outcome is exactly the graph builder's outcome. -/
theorem populate_build {w : CWorld} {m : Model} {ws : List Device}
    {snaps : List SeedSnap}
    (hg : w.seededGet = .ok false ∨ w.seededGet = .noState)
    (himp : importAssertionsFromSeed w.onClassic w.iw = (.ok m, ws))
    (hsc : (w.onClassic && !w.seedYamlExists) = false)
    (hyaml : w.readSeedYaml = .ok snaps) :
    populateStateFromSeedImpl w = (buildGraph w m snaps, ws) := by
  rw [populate_guard_pass hg, afterGuard_import_ok himp, hsc, hyaml]
  rfl

/-! ### Device-identity writes of the importer -/

theorem import_writes_ok (onCl : Bool) (w : IWorld) (m : Model) (ws : List Device)
    (h : importAssertionsFromSeed onCl w = (.ok m, ws)) :
    ws = [⟨m.brandID, m.model⟩] := by
  unfold importAssertionsFromSeed at h
  repeat' split at h
  all_goals injection h with h1 h2
  all_goals cases h1
  all_goals subst h2
  all_goals rfl

theorem import_writes_error (onCl : Bool) (w : IWorld) (e : IErr) (ws : List Device)
    (h : importAssertionsFromSeed onCl w = (.error e, ws)) :
    ws = [] := by
  unfold importAssertionsFromSeed at h
  repeat' split at h
  all_goals injection h with h1 h2
  all_goals cases h1
  all_goals subst h2
  all_goals rfl

/-! ### Success-shape inversion of the graph-building phases -/

theorem corePhase_ok_inv {w : CWorld} {snaps : List SeedSnap} {st : BuildSt}
    (h : corePhase w snaps = .ok st) :
    (snaps = [] ∧ st = ⟨[], [], [], []⟩) ∨
    (snaps ≠ [] ∧ ∃ cs f, lookupSeeding snaps "core" = some cs ∧
      installSeedSnap w cs ⟨false, false, true, false⟩ = .ok f ∧
      st = ⟨[f, ⟨.configure, "core", {}, []⟩], [0], [1], ["core"]⟩) := by
  unfold corePhase at h
  split at h
  · left
    refine ⟨List.isEmpty_iff.mp (by assumption), ?_⟩
    injection h with h2
    exact h2.symm
  · right
    refine ⟨fun he => by simp [he] at *, ?_⟩
    split at h
    · cases h
    · split at h
      · cases h
      · injection h with h2
        exact ⟨_, _, by assumption, by assumption, h2.symm⟩

theorem kernelPhase_ok_inv {w : CWorld} {m : Model} {snaps : List SeedSnap}
    {st st' : BuildSt} {last last' : Nat}
    (h : kernelPhase w m snaps st last = .ok (st', last')) :
    (m.kernel = "" ∧ st' = st ∧ last' = last) ∨
    (m.kernel ≠ "" ∧ ∃ ks f pred cpred,
      lookupSeeding snaps m.kernel = some ks ∧
      installSeedSnap w ks ⟨false, false, true, false⟩ = .ok f ∧
      st.tsAll.get? last = some pred ∧
      st.configTss.get? last = some cpred ∧
      st' = ⟨st.arena ++ [{ f with waits := [pred] }, ⟨.configure, m.kernel, {}, [cpred]⟩],
             st.tsAll ++ [st.arena.length],
             st.configTss ++ [st.arena.length + 1],
             st.already ++ [m.kernel]⟩ ∧
      last' = last + 1) := by
  unfold kernelPhase at h
  split at h
  · left
    injection h with h2
    injection h2 with h3 h4
    exact ⟨by assumption, h3.symm, h4.symm⟩
  · right
    refine ⟨by assumption, ?_⟩
    split at h
    · cases h
    · split at h
      · cases h
      · split at h
        · cases h
        · split at h
          · cases h
          · injection h with h2
            injection h2 with h3 h4
            refine ⟨_, _, _, _, by assumption, by assumption, by assumption,
              by assumption, ?_, h4.symm⟩
            rw [← h3]
            simp

theorem gadgetPhase_ok_inv {w : CWorld} {m : Model} {snaps : List SeedSnap}
    {st st' : BuildSt} {last last' : Nat}
    (h : gadgetPhase w m snaps st last = .ok (st', last')) :
    (m.gadget = "" ∧ st' = st ∧ last' = last) ∨
    (m.gadget ≠ "" ∧ ∃ gs f pred cpred,
      lookupSeeding snaps m.gadget = some gs ∧
      installSeedSnap w gs ⟨false, false, true, false⟩ = .ok f ∧
      st.tsAll.get? last = some pred ∧
      st.configTss.get? last = some cpred ∧
      st' = ⟨st.arena ++ [{ f with waits := [pred] }, ⟨.configure, m.gadget, {}, [cpred]⟩],
             st.tsAll ++ [st.arena.length],
             st.configTss ++ [st.arena.length + 1],
             st.already ++ [m.gadget]⟩ ∧
      last' = last + 1) := by
  unfold gadgetPhase at h
  split at h
  · left
    injection h with h2
    injection h2 with h3 h4
    exact ⟨by assumption, h3.symm, h4.symm⟩
  · right
    refine ⟨by assumption, ?_⟩
    split at h
    · cases h
    · split at h
      · cases h
      · split at h
        · cases h
        · split at h
          · cases h
          · injection h with h2
            injection h2 with h3 h4
            refine ⟨_, _, _, _, by assumption, by assumption, by assumption,
              by assumption, ?_, h4.symm⟩
            rw [← h3]
            simp

theorem splicePhase_ok_inv {st st' : BuildSt} {last last' : Nat}
    (h : splicePhase st last = .ok (st', last')) :
    ∃ c0 pred, st.configTss.get? 0 = some c0 ∧ st.tsAll.get? last = some pred ∧
      st' = ⟨arenaWait st.arena c0 pred, st.tsAll ++ st.configTss,
             st.configTss, st.already⟩ ∧
      last' = last + st.configTss.length := by
  unfold splicePhase at h
  split at h
  · cases h
  · split at h
    · cases h
    · injection h with h2
      injection h2 with h3 h4
      exact ⟨_, _, by assumption, by assumption, h3.symm, h4.symm⟩

theorem finishPhase_ok_inv {a a' : List Frag} {ts ts' : List Nat}
    (h : finishPhase a ts = .ok (a', ts')) :
    ∃ lastTs, ts.get? (ts.length - 1) = some lastTs ∧
      a' = a ++ [⟨.markSeeded, "", {}, [lastTs]⟩] ∧
      ts' = ts ++ [a.length] := by
  unfold finishPhase at h
  split at h
  · cases h
  · split at h
    · cases h
    · injection h with h2
      injection h2 with h3 h4
      exact ⟨_, by assumption, h3.symm, h4.symm⟩

theorem trailingStep_ok_inv {w : CWorld} {req : String → Bool} {sn : SeedSnap}
    {a a2 : List Frag} {ts ts2 : List Nat} {last l2 : Nat}
    (h : trailingStep w req sn a ts last = .ok (a2, ts2, l2)) :
    ∃ f pred, installSeedSnap w sn (trailingFlags req sn.name) = .ok f ∧
      ts.get? last = some pred ∧
      a2 = a ++ [{ f with waits := [pred] }] ∧
      ts2 = ts ++ [a.length] ∧ l2 = last + 1 := by
  unfold trailingStep at h
  split at h
  · cases h
  · split at h
    · cases h
    · injection h with h2
      injection h2 with h3 h4
      injection h4 with h5 h6
      exact ⟨_, _, by assumption, by assumption, h3.symm, h5.symm, h6.symm⟩

/-- The trailing loop only appends: the arena and the chain it returns extend
the ones it was given. -/
theorem trailingPhase_extends {w : CWorld} {req : String → Bool}
    {alr : List String} :
    ∀ {snaps : List SeedSnap} {a a' : List Frag} {ts ts' : List Nat}
      {last l' : Nat},
      trailingPhase w req alr snaps a ts last = .ok (a', ts', l') →
      ∃ ex ex2, a' = a ++ ex ∧ ts' = ts ++ ex2 := by
  intro snaps
  induction snaps with
  | nil =>
    intro a a' ts ts' last l' h
    rw [trailingPhase] at h
    injection h with h2
    injection h2 with h3 h4
    injection h4 with h5 h6
    exact ⟨[], [], by simp [h3], by simp [h5]⟩
  | cons sn rest ih =>
    intro a a' ts ts' last l' h
    rw [trailingPhase] at h
    split at h
    · exact ih h
    · cases hstep : trailingStep w req sn a ts last with
      | error e => rw [hstep] at h; cases h
      | ok p =>
        rw [hstep] at h
        obtain ⟨a2, ts2, l2⟩ := p
        obtain ⟨f, pred, _, _, ha2, hts2, _⟩ := trailingStep_ok_inv hstep
        obtain ⟨ex, ex2, ha', hts'⟩ := ih h
        subst ha2 hts2
        refine ⟨{ f with waits := [pred] } :: ex, a.length :: ex2, ?_, ?_⟩
        · simp [ha']
        · simp [hts']

/-! ### Claim theorems -/

/-- C1: the claim says a compilation whose ordering steps produce no fragments
(present but empty manifest, model naming neither kernel nor gadget) returns
the fatal error "no snaps to seed" with all index accesses in bounds.  The code
instead panics: with no fragments queued, `configTss[0]` (line 178) indexes an
empty slice before the `len(tsAll) == 0` check of line 202 is ever reached.
This theorem evaluates the compiler at exactly that input and shows the
out-of-range panic (and that the device identity was already updated by the
successful import). -/
theorem c1_empty_manifest_panics :
    populateStateFromSeedImpl (sampleCW true (sampleModel "" "" [] true) []) =
      (.error (.panicIndex, []), [⟨"my-brand", "my-model"⟩]) := by
  rfl

/-- C2: a model whose classic flag disagrees with the system build mode makes
compilation fail inside the importer — wrapped as `CErr.importErr`, produced
before `buildGraph` (the only fragment constructor) runs, with an empty
fragment trace and no device write — and the two mismatch directions carry
distinct error messages. -/
theorem c2_classic_mismatch (w : CWorld) (d : Device)
    (files : List (Except String (List ARef))) (r : ARef) (m : Model)
    (hg : w.seededGet = .ok false ∨ w.seededGet = .noState)
    (hdev : w.iw.deviceRes = .ok d)
    (hdir : w.iw.assertDir = .ok files)
    (hscan : scanFiles none files = .ok (some r))
    (hcommit : w.iw.commitRes = .ok ())
    (hres : w.iw.resolve r = .ok m)
    (hmm : w.onClassic ≠ m.classic) :
    populateStateFromSeedImpl w =
      (.error (.importErr (if m.classic then .classicModelOnAllSnaps
                           else .allSnapsModelOnClassic), []), []) ∧
    IErr.classicModelOnAllSnaps.message = "cannot seed an all-snaps system with a classic model" ∧
    IErr.allSnapsModelOnClassic.message = "cannot seed a classic system with an all-snaps model" := by
  have himp : importAssertionsFromSeed w.onClassic w.iw =
      (.error (if m.classic then .classicModelOnAllSnaps
               else .allSnapsModelOnClassic), []) := by
    unfold importAssertionsFromSeed
    rw [hdev]; dsimp only
    rw [hdir]; dsimp only
    rw [hscan]; dsimp only
    rw [hcommit]; dsimp only
    rw [hres]; dsimp only
    rw [if_pos hmm]
    by_cases hc : m.classic <;> simp [hc]
  have hne : (if m.classic then IErr.classicModelOnAllSnaps
              else IErr.allSnapsModelOnClassic) ≠ .nothingToDo := by
    by_cases hc : m.classic <;> simp [hc]
  rw [populate_guard_pass hg, afterGuard_import_error hne himp]
  exact ⟨rfl, rfl, rfl⟩

/-- C2 witness: a concrete all-snaps system handed a classic model fails with
the classic-model-direction message and nothing else happens. -/
theorem c2_classic_mismatch_witness :
    populateStateFromSeedImpl (sampleCW false (sampleModel "" "" [] true) []) =
      (.error (.importErr .classicModelOnAllSnaps, []), []) := by
  have h := c2_classic_mismatch (sampleCW false (sampleModel "" "" [] true) [])
    ⟨"", ""⟩ [.ok [⟨modelType, "u1"⟩]] ⟨modelType, "u1"⟩
    (sampleModel "" "" [] true) (Or.inr rfl) rfl rfl rfl rfl rfl (by decide)
  simpa using h.1

/-- C3: if the persisted seeded flag is true the compiler fails immediately
with the already-seeded error — independently of every other collaborator, so
before any trust import, with no device write and no fragment — and while the
flag is false (or unset) no execution can produce that error. -/
theorem c3_seeded_guard (w : CWorld) :
    (w.seededGet = .ok true →
       populateStateFromSeedImpl w = (.error (.alreadySeeded, []), []) ∧
       CErr.alreadySeeded.message = "cannot populate state: already seeded") ∧
    ((w.seededGet = .ok false ∨ w.seededGet = .noState) →
       ∀ t, (populateStateFromSeedImpl w).1 ≠ .error (.alreadySeeded, t)) := by
  constructor
  · intro h
    unfold populateStateFromSeedImpl
    rw [h]
    exact ⟨rfl, rfl⟩
  · intro hg t
    rw [populate_guard_pass hg]
    unfold populateAfterGuard
    cases himp : importAssertionsFromSeed w.onClassic w.iw with
    | mk res ws =>
      cases res with
      | error e => cases e <;> simp
      | ok m =>
        dsimp only
        split
        · simp
        · cases hy : w.readSeedYaml with
          | error e => simp
          | ok snaps =>
            dsimp only
            exact fun hh => buildGraph_ne_already w m snaps t hh

/-- C3 witness: with the flag set the sample world fails as already-seeded;
with the flag unset the same world does not produce that error. -/
theorem c3_seeded_guard_witness :
    populateStateFromSeedImpl
        { sampleCW true (sampleModel "" "" [] true) [sampleSnap "core"] with
          seededGet := .ok true } =
      (.error (.alreadySeeded, []), []) ∧
    (populateStateFromSeedImpl
        (sampleCW true (sampleModel "" "" [] true) [sampleSnap "core"])).1 ≠
      .error (.alreadySeeded, []) :=
  ⟨((c3_seeded_guard _).1 rfl).1, (c3_seeded_guard _).2 (Or.inr rfl) []⟩

/-- C7: a non-empty manifest without a `core` entry fails with the
missing-core error, with no fragment constructed and no graph. -/
theorem c7_missing_core (w : CWorld) (m : Model) (ws : List Device)
    (snaps : List SeedSnap)
    (hg : w.seededGet = .ok false ∨ w.seededGet = .noState)
    (himp : importAssertionsFromSeed w.onClassic w.iw = (.ok m, ws))
    (hsc : (w.onClassic && !w.seedYamlExists) = false)
    (hyaml : w.readSeedYaml = .ok snaps)
    (hne : snaps ≠ [])
    (hnocore : ∀ sn ∈ snaps, sn.name ≠ "core") :
    populateStateFromSeedImpl w = (.error (.missingCore, []), ws) ∧
    CErr.missingCore.message = "cannot proceed without seeding core" := by
  rw [populate_build hg himp hsc hyaml]
  have hb : buildGraph w m snaps = .error (.missingCore, []) := by
    unfold buildGraph corePhase
    rw [if_neg (by simpa [List.isEmpty_iff] using hne),
      lookupSeeding_none hnocore]
  rw [hb]
  exact ⟨rfl, rfl⟩

/-- C7 witness: a manifest holding only a non-core entry fails with the
missing-core error. -/
theorem c7_missing_core_witness :
    populateStateFromSeedImpl
        (sampleCW true (sampleModel "" "" [] true) [sampleSnap "hello"]) =
      (.error (.missingCore, []), [⟨"my-brand", "my-model"⟩]) :=
  (c7_missing_core (sampleCW true (sampleModel "" "" [] true) [sampleSnap "hello"])
    (sampleModel "" "" [] true) [⟨"my-brand", "my-model"⟩]
    [sampleSnap "hello"] (Or.inr rfl) rfl rfl rfl (by decide)
    (by decide)).1

/-- C8: in optional-seed (classic) mode, a missing trust directory — or a
successful import with no seed manifest present — short-circuits into a
successful compilation whose graph is exactly one mark-seeded fragment with no
predecessors. -/
theorem c8_optional_seed (w : CWorld)
    (hg : w.seededGet = .ok false ∨ w.seededGet = .noState)
    (hcl : w.onClassic = true) :
    (∀ d e, w.iw.deviceRes = .ok d → w.iw.assertDir = .notExist e →
       populateStateFromSeedImpl w = (.ok markSeededOnly, [])) ∧
    (∀ m ws, importAssertionsFromSeed w.onClassic w.iw = (.ok m, ws) →
       w.seedYamlExists = false →
       populateStateFromSeedImpl w = (.ok markSeededOnly, ws)) ∧
    markSeededOnly = ([⟨.markSeeded, "", {}, []⟩], [0]) := by
  refine ⟨?_, ?_, rfl⟩
  · intro d e hdev hdir
    have himp : importAssertionsFromSeed w.onClassic w.iw =
        (.error .nothingToDo, []) := by
      unfold importAssertionsFromSeed
      rw [hdev, hdir, hcl]
      rfl
    rw [populate_guard_pass hg, afterGuard_nothingToDo himp]
  · intro m ws himp hy
    rw [populate_guard_pass hg, afterGuard_import_ok himp, hcl, hy]
    rfl

/-- C8 witness: both short-circuits evaluated on concrete classic worlds. -/
theorem c8_optional_seed_witness :
    populateStateFromSeedImpl
        { sampleCW true (sampleModel "" "" [] true) [] with
          iw := { sampleIW (sampleModel "" "" [] true) with
                  assertDir := .notExist "ENOENT" } } =
      (.ok markSeededOnly, []) ∧
    populateStateFromSeedImpl
        { sampleCW true (sampleModel "" "" [] true) [] with
          seedYamlExists := false } =
      (.ok markSeededOnly, [⟨"my-brand", "my-model"⟩]) := by
  constructor
  · exact (c8_optional_seed _ (Or.inr rfl) rfl).1 ⟨"", ""⟩ "ENOENT" rfl rfl
  · exact (c8_optional_seed _ (Or.inr rfl) rfl).2.1 (sampleModel "" "" [] true)
      [⟨"my-brand", "my-model"⟩] rfl rfl

/-- C9: the device identity is persisted exactly once per successful import,
as the model's brand/model pair, and every failing import leaves the list of
persisted identity writes empty. -/
theorem c9_device_writes (onCl : Bool) (w : IWorld) :
    (∀ m ws, importAssertionsFromSeed onCl w = (.ok m, ws) →
       ws = [⟨m.brandID, m.model⟩]) ∧
    (∀ e ws, importAssertionsFromSeed onCl w = (.error e, ws) → ws = []) :=
  ⟨fun m ws h => import_writes_ok onCl w m ws h,
   fun e ws h => import_writes_error onCl w e ws h⟩

/-- C9 witness: a successful sample import writes the identity once; the same
world with a failing commit writes nothing. -/
theorem c9_device_writes_witness :
    (importAssertionsFromSeed true (sampleIW (sampleModel "" "" [] true))).2 =
      [⟨"my-brand", "my-model"⟩] ∧
    (importAssertionsFromSeed true
        { sampleIW (sampleModel "" "" [] true) with
          commitRes := .error "disk full" }).2 = [] := by
  constructor
  · exact (c9_device_writes true (sampleIW (sampleModel "" "" [] true))).1
      (sampleModel "" "" [] true) [⟨"my-brand", "my-model"⟩] rfl
  · exact (c9_device_writes true
      { sampleIW (sampleModel "" "" [] true) with
        commitRes := .error "disk full" }).2 (.commitErr "disk full") [] rfl

/-! ### C4: model-reference counting -/

theorem collectModel_noModel :
    ∀ (refs : List ARef) (cand : Option ARef),
      (∀ r ∈ refs, r.typ ≠ modelType) → collectModel cand refs = .ok cand := by
  intro refs
  induction refs with
  | nil => intro cand _; rfl
  | cons r rs ih =>
    intro cand h
    rw [collectModel]
    rw [if_neg (h r (by simp))]
    exact ih cand (fun x hx => h x (by simp [hx]))

theorem mem_modelRefs {l : List ARef} {r : ARef} :
    r ∈ modelRefs l ↔ r ∈ l ∧ r.typ = modelType := by
  simp [modelRefs, List.mem_filter]

theorem modelRefs_eq_nil {l : List ARef} :
    modelRefs l = [] ↔ ∀ r ∈ l, r.typ ≠ modelType := by
  simp [modelRefs, List.filter_eq_nil_iff]

theorem import_scan_error {onCl : Bool} {w : IWorld} {d : Device}
    {files : List (Except String (List ARef))} {e : IErr}
    (hdev : w.deviceRes = .ok d) (hdir : w.assertDir = .ok files)
    (hscan : scanFiles none files = .error e) :
    importAssertionsFromSeed onCl w = (.error e, []) := by
  unfold importAssertionsFromSeed
  rw [hdev]; dsimp only
  rw [hdir]; dsimp only
  rw [hscan]

theorem import_scan_none {onCl : Bool} {w : IWorld} {d : Device}
    {files : List (Except String (List ARef))}
    (hdev : w.deviceRes = .ok d) (hdir : w.assertDir = .ok files)
    (hscan : scanFiles none files = .ok none) :
    importAssertionsFromSeed onCl w = (.error .missingModel, []) := by
  unfold importAssertionsFromSeed
  rw [hdev]; dsimp only
  rw [hdir]; dsimp only
  rw [hscan]

theorem import_scan_some {onCl : Bool} {w : IWorld} {d : Device}
    {files : List (Except String (List ARef))} {r : ARef} {m : Model}
    (hdev : w.deviceRes = .ok d) (hdir : w.assertDir = .ok files)
    (hscan : scanFiles none files = .ok (some r))
    (hcommit : w.commitRes = .ok ())
    (hres : w.resolve r = .ok m)
    (hcl : onCl = m.classic)
    (hset : w.setDeviceRes ⟨m.brandID, m.model⟩ = .ok ()) :
    importAssertionsFromSeed onCl w = (.ok m, [⟨m.brandID, m.model⟩]) := by
  unfold importAssertionsFromSeed
  rw [hdev]; dsimp only
  rw [hdir]; dsimp only
  rw [hscan]; dsimp only
  rw [hcommit]; dsimp only
  rw [hres]; dsimp only
  rw [if_neg (by rw [hcl]; simp)]
  rw [hset]

/-- C4: over a readable trust batch — two model-kind references with differing
identity make the importer fail with the multiple-model error; no model-kind
reference at all makes it fail with the missing-model error; and when every
model-kind reference shares one identity (duplicates included) the import
succeeds and yields exactly one model descriptor, the resolved one. -/
theorem c4_model_scan (onCl : Bool) (w : IWorld) (d : Device)
    (files : List (List ARef))
    (hdev : w.deviceRes = .ok d)
    (hdir : w.assertDir = .ok (files.map Except.ok)) :
    ((∃ r1 ∈ modelRefs files.flatten, ∃ r2 ∈ modelRefs files.flatten,
        r1.unique ≠ r2.unique) →
      importAssertionsFromSeed onCl w = (.error .multipleModel, [])) ∧
    (modelRefs files.flatten = [] →
      importAssertionsFromSeed onCl w = (.error .missingModel, [])) ∧
    (∀ u m, (∀ r ∈ modelRefs files.flatten, r.unique = u) →
      modelRefs files.flatten ≠ [] →
      w.commitRes = .ok () →
      (∀ r, r.typ = modelType → r.unique = u → w.resolve r = .ok m) →
      onCl = m.classic →
      w.setDeviceRes ⟨m.brandID, m.model⟩ = .ok () →
      importAssertionsFromSeed onCl w = (.ok m, [⟨m.brandID, m.model⟩])) := by
  refine ⟨?_, ?_, ?_⟩
  · rintro ⟨r1, hr1, r2, hr2, hne⟩
    have hscan : scanFiles none (files.map Except.ok) = .error .multipleModel := by
      rw [scanFiles_map_ok]
      cases hc : collectModel none files.flatten with
      | ok res =>
        obtain ⟨u, _, hall⟩ := collectModel_ok_uniform files.flatten none res hc
        obtain ⟨hm1, ht1⟩ := mem_modelRefs.mp hr1
        obtain ⟨hm2, ht2⟩ := mem_modelRefs.mp hr2
        exact absurd ((hall r1 hm1 ht1).trans (hall r2 hm2 ht2).symm) hne
      | error e =>
        rw [collectModel_error_multiple files.flatten none e hc]
    exact import_scan_error hdev hdir hscan
  · intro hnil
    have hscan : scanFiles none (files.map Except.ok) = .ok none := by
      rw [scanFiles_map_ok]
      exact collectModel_noModel files.flatten none (modelRefs_eq_nil.mp hnil)
    exact import_scan_none hdev hdir hscan
  · intro u m hall hne hcommit hres hcl hset
    obtain ⟨res, hres2, hprop, hnone⟩ :=
      collectModel_same u files.flatten none
        (fun r hm ht => hall r (mem_modelRefs.mpr ⟨hm, ht⟩))
        (by intro c hc; cases hc)
    cases res with
    | none =>
      exact absurd (modelRefs_eq_nil.mpr (hnone rfl).2) hne
    | some r0 =>
      obtain ⟨hu0, ht0⟩ := hprop r0 rfl
      have hscan : scanFiles none (files.map Except.ok) = .ok (some r0) := by
        rw [scanFiles_map_ok]; exact hres2
      exact import_scan_some hdev hdir hscan hcommit (hres r0 ht0 hu0) hcl hset

/-- C4 witness: conflicting identities fail, a batch with no model assertion
fails, and a batch holding the same model assertion twice succeeds with one
descriptor. -/
theorem c4_model_scan_witness :
    importAssertionsFromSeed true
        { sampleIW (sampleModel "" "" [] true) with
          assertDir := .ok [.ok [⟨modelType, "u1"⟩], .ok [⟨modelType, "u2"⟩]] } =
      (.error .multipleModel, []) ∧
    importAssertionsFromSeed true
        { sampleIW (sampleModel "" "" [] true) with
          assertDir := .ok [.ok [⟨"account-key", "u1"⟩]] } =
      (.error .missingModel, []) ∧
    importAssertionsFromSeed true
        { sampleIW (sampleModel "" "" [] true) with
          assertDir := .ok [.ok [⟨modelType, "u1"⟩], .ok [⟨modelType, "u1"⟩]] } =
      (.ok (sampleModel "" "" [] true), [⟨"my-brand", "my-model"⟩]) := by
  refine ⟨?_, ?_, ?_⟩
  · exact (c4_model_scan true _ ⟨"", ""⟩ [[⟨modelType, "u1"⟩], [⟨modelType, "u2"⟩]]
      rfl rfl).1 (by decide)
  · exact (c4_model_scan true _ ⟨"", ""⟩ [[⟨"account-key", "u1"⟩]]
      rfl rfl).2.1 (by decide)
  · exact (c4_model_scan true _ ⟨"", ""⟩ [[⟨modelType, "u1"⟩], [⟨modelType, "u1"⟩]]
      rfl rfl).2.2 "u1" (sampleModel "" "" [] true) (by decide) (by decide)
      rfl (fun r _ _ => rfl) rfl rfl

/-- C6: a manifest holding only a `core` entry, against a model with no
kernel, no gadget and no required snaps, compiles to exactly three fragments
in wait order — the core install, the core configure waiting on the install,
and the mark-seeded fragment waiting on the configure. -/
theorem c6_core_only (w : CWorld) (m : Model) (ws : List Device) (sn : SeedSnap)
    (f : Frag)
    (hg : w.seededGet = .ok false ∨ w.seededGet = .noState)
    (himp : importAssertionsFromSeed w.onClassic w.iw = (.ok m, ws))
    (hsc : (w.onClassic && !w.seedYamlExists) = false)
    (hyaml : w.readSeedYaml = .ok [sn])
    (hname : sn.name = "core")
    (hk : m.kernel = "") (hgad : m.gadget = "") (hreq : m.requiredSnaps = [])
    (hinst : installSeedSnap w sn ⟨false, false, true, false⟩ = .ok f) :
    populateStateFromSeedImpl w =
      (.ok ([f, ⟨.configure, "core", {}, [0]⟩, ⟨.markSeeded, "", {}, [1]⟩],
            [0, 1, 2]), ws) ∧
    f.op = .install ∧ f.name = "core" ∧ f.waits = [] := by
  obtain ⟨hop, hfname, hwaits, _, _⟩ := installSeedSnap_ok_shape hinst
  have hl : lookupSeeding [sn] "core" = some sn := by
    simp [lookupSeeding, hname]
  have hb : buildGraph w m [sn] =
      .ok ([f, ⟨.configure, "core", {}, [0]⟩, ⟨.markSeeded, "", {}, [1]⟩],
           [0, 1, 2]) := by
    simp [buildGraph, corePhase, kernelPhase, gadgetPhase, splicePhase,
      trailingPhase, finishPhase, arenaWait, hl, hinst, hk, hgad, hname]
  rw [populate_build hg himp hsc hyaml, hb]
  exact ⟨rfl, hop, hfname.trans hname, hwaits⟩

/-- C6 witness: the sample core-only world compiles to exactly that graph. -/
theorem c6_core_only_witness :
    populateStateFromSeedImpl
        (sampleCW true (sampleModel "" "" [] true) [sampleSnap "core"]) =
      (.ok ([⟨.install, "core", ⟨false, false, true, false⟩, []⟩,
             ⟨.configure, "core", {}, [0]⟩, ⟨.markSeeded, "", {}, [1]⟩],
            [0, 1, 2]), [⟨"my-brand", "my-model"⟩]) :=
  (c6_core_only (sampleCW true (sampleModel "" "" [] true) [sampleSnap "core"])
    (sampleModel "" "" [] true) [⟨"my-brand", "my-model"⟩] (sampleSnap "core")
    ⟨.install, "core", ⟨false, false, true, false⟩, []⟩
    (Or.inr rfl) rfl rfl rfl rfl rfl rfl rfl rfl).1

/-- C5: when the model names a kernel — if the manifest lacks that entry,
compilation fails; in every successful compilation the fragments sit at fixed
arena slots: core install (0, no waits), core configure (1), kernel install
(2, waits on core install), kernel configure (3, waits on the core configure,
not on the kernel install), and with a gadget also gadget install (4, waits on
kernel install) and gadget configure (5, waits on kernel configure); the core
configure waits on the last present foundational install (kernel install 2, or
gadget install 4), and the chain order starts with all installs followed by
the configure block in core→kernel→gadget order. -/
theorem c5_kernel_ordering (w : CWorld) (m : Model) (ws : List Device)
    (snaps : List SeedSnap)
    (hg : w.seededGet = .ok false ∨ w.seededGet = .noState)
    (himp : importAssertionsFromSeed w.onClassic w.iw = (.ok m, ws))
    (hsc : (w.onClassic && !w.seedYamlExists) = false)
    (hyaml : w.readSeedYaml = .ok snaps)
    (hk : m.kernel ≠ "") :
    (lookupSeeding snaps m.kernel = none →
       ∃ e t, (populateStateFromSeedImpl w).1 = .error (e, t)) ∧
    (∀ a ts, (populateStateFromSeedImpl w).1 = .ok (a, ts) →
       ((m.gadget = "" →
           (∃ fi, a.get? 0 = some fi ∧ fi.op = .install ∧ fi.name = "core" ∧
              fi.waits = []) ∧
           (∃ ki, a.get? 2 = some ki ∧ ki.op = .install ∧ ki.name = m.kernel ∧
              ki.waits = [0]) ∧
           a.get? 1 = some ⟨.configure, "core", {}, [2]⟩ ∧
           a.get? 3 = some ⟨.configure, m.kernel, {}, [1]⟩ ∧
           ∃ rest, ts = 0 :: 2 :: 1 :: 3 :: rest) ∧
        (m.gadget ≠ "" →
           (∃ fi, a.get? 0 = some fi ∧ fi.op = .install ∧ fi.name = "core" ∧
              fi.waits = []) ∧
           (∃ ki, a.get? 2 = some ki ∧ ki.op = .install ∧ ki.name = m.kernel ∧
              ki.waits = [0]) ∧
           (∃ gi, a.get? 4 = some gi ∧ gi.op = .install ∧ gi.name = m.gadget ∧
              gi.waits = [2]) ∧
           a.get? 1 = some ⟨.configure, "core", {}, [4]⟩ ∧
           a.get? 3 = some ⟨.configure, m.kernel, {}, [1]⟩ ∧
           a.get? 5 = some ⟨.configure, m.gadget, {}, [3]⟩ ∧
           ∃ rest, ts = 0 :: 2 :: 4 :: 1 :: 3 :: 5 :: rest))) := by
  have hpop : populateStateFromSeedImpl w = (buildGraph w m snaps, ws) :=
    populate_build hg himp hsc hyaml
  constructor
  · intro habs
    rw [hpop]
    unfold buildGraph
    cases hcore : corePhase w snaps with
    | error e =>
      obtain ⟨e1, t1⟩ := e
      exact ⟨e1, t1, rfl⟩
    | ok st0 =>
      dsimp only
      unfold kernelPhase
      rw [if_neg hk, habs]
      exact ⟨.missingKernel m.kernel, st0.arena, rfl⟩
  · intro a ts hb'
    rw [hpop] at hb'
    have hb : buildGraph w m snaps = .ok (a, ts) := hb'
    clear hb'
    unfold buildGraph at hb
    cases hcore : corePhase w snaps with
    | error e => rw [hcore] at hb; cases hb
    | ok st0 =>
    rw [hcore] at hb
    dsimp only at hb
    cases hkp : kernelPhase w m snaps st0 0 with
    | error e => rw [hkp] at hb; cases hb
    | ok p1 =>
    rw [hkp] at hb
    obtain ⟨st1, last1⟩ := p1
    dsimp only at hb
    rcases corePhase_ok_inv hcore with ⟨hsnil, hst0⟩ |
      ⟨hsne, cs, f, hlc, hinstc, hst0⟩
    · rcases kernelPhase_ok_inv hkp with ⟨hk0, _, _⟩ |
        ⟨_, ks, fk, pred, cpred, hlk, _, _, _, _, _⟩
      · exact absurd hk0 hk
      · rw [hsnil] at hlk
        simp [lookupSeeding] at hlk
    rcases kernelPhase_ok_inv hkp with ⟨hk0, _, _⟩ |
      ⟨_, ks, fk, pred, cpred, hlk, hinstk, hgetp, hgetc, hst1, hlast1⟩
    · exact absurd hk0 hk
    obtain ⟨hfop, hfname, hfwaits, _, _⟩ := installSeedSnap_ok_shape hinstc
    obtain ⟨hkop, hkname, hkwaits, _, _⟩ := installSeedSnap_ok_shape hinstk
    have hcsname : cs.name = "core" := lookupSeeding_name hlc
    have hksname : ks.name = m.kernel := lookupSeeding_name hlk
    subst hst0
    simp only at hgetp hgetc
    obtain rfl : pred = 0 := by
      simpa using hgetp.symm
    obtain rfl : cpred = 1 := by
      simpa using hgetc.symm
    subst hst1 hlast1
    simp only [List.cons_append, List.nil_append, List.singleton_append,
      List.length_cons, List.length_nil, List.length_append,
      Nat.zero_add, Nat.add_zero, Nat.reduceAdd] at hb
    cases hgp : gadgetPhase w m snaps
        ⟨[f, ⟨.configure, "core", {}, []⟩,
          { fk with waits := [0] }, ⟨.configure, m.kernel, {}, [1]⟩],
         [0, 2], [1, 3], ["core", m.kernel]⟩ 1 with
    | error e => rw [hgp] at hb; cases hb
    | ok p2 =>
    rw [hgp] at hb
    obtain ⟨st2, last2⟩ := p2
    dsimp only at hb
    rcases gadgetPhase_ok_inv hgp with ⟨hg0, hst2, hlast2⟩ |
      ⟨hgne, gs, fg, pred2, cpred2, hlg, hinstg, hgetp2, hgetc2, hst2, hlast2⟩
    · -- no gadget: four foundational fragments
      subst hst2 hlast2
      have hsp : splicePhase
          ⟨[f, ⟨.configure, "core", {}, []⟩,
            { fk with waits := [0] }, ⟨.configure, m.kernel, {}, [1]⟩],
           [0, 2], [1, 3], ["core", m.kernel]⟩ 1 =
          .ok (⟨[f, ⟨.configure, "core", {}, [2]⟩,
                 { fk with waits := [0] }, ⟨.configure, m.kernel, {}, [1]⟩],
                [0, 2, 1, 3], [1, 3], ["core", m.kernel]⟩, 3) := by
        simp [splicePhase, arenaWait]
      rw [hsp] at hb
      dsimp only at hb
      cases htr : trailingPhase w (requiredSet m) ["core", m.kernel] snaps
          [f, ⟨.configure, "core", {}, [2]⟩,
           { fk with waits := [0] }, ⟨.configure, m.kernel, {}, [1]⟩]
          [0, 2, 1, 3] 3 with
      | error e => rw [htr] at hb; cases hb
      | ok p4 =>
      rw [htr] at hb
      obtain ⟨a4, ts4, l4⟩ := p4
      dsimp only at hb
      obtain ⟨ex, ex2, ha4, hts4⟩ := trailingPhase_extends htr
      obtain ⟨lastTs, _, hA, hTs⟩ := finishPhase_ok_inv hb
      subst ha4 hts4 hA hTs
      refine ⟨fun _ => ⟨⟨f, by simp, hfop, hfname.trans hcsname, hfwaits⟩,
        ⟨{ fk with waits := [0] }, by simp, hkop, hkname.trans hksname, rfl⟩,
        by simp, by simp,
        ⟨ex2 ++ [([f, ⟨.configure, "core", {}, [2]⟩, { fk with waits := [0] },
           ⟨.configure, m.kernel, {}, [1]⟩] ++ ex).length], by simp⟩⟩,
        fun hh => absurd hg0 hh⟩
    · -- gadget present: six foundational fragments
      simp only [List.cons_append, List.nil_append, List.singleton_append,
        List.length_cons, List.length_nil, List.length_append,
        Nat.zero_add, Nat.add_zero, Nat.reduceAdd] at hgetp2 hgetc2 hst2 hlast2
      obtain rfl : pred2 = 2 := by
        simpa using hgetp2.symm
      obtain rfl : cpred2 = 3 := by
        simpa using hgetc2.symm
      obtain ⟨hgop, hgname, hgwaits, _, _⟩ := installSeedSnap_ok_shape hinstg
      have hgsname : gs.name = m.gadget := lookupSeeding_name hlg
      subst hst2 hlast2
      have hsp : splicePhase
          ⟨[f, ⟨.configure, "core", {}, []⟩,
            { fk with waits := [0] }, ⟨.configure, m.kernel, {}, [1]⟩,
            { fg with waits := [2] }, ⟨.configure, m.gadget, {}, [3]⟩],
           [0, 2, 4], [1, 3, 5], ["core", m.kernel, m.gadget]⟩ 2 =
          .ok (⟨[f, ⟨.configure, "core", {}, [4]⟩,
                 { fk with waits := [0] }, ⟨.configure, m.kernel, {}, [1]⟩,
                 { fg with waits := [2] }, ⟨.configure, m.gadget, {}, [3]⟩],
                [0, 2, 4, 1, 3, 5], [1, 3, 5],
                ["core", m.kernel, m.gadget]⟩, 5) := by
        simp [splicePhase, arenaWait]
      rw [hsp] at hb
      dsimp only at hb
      cases htr : trailingPhase w (requiredSet m) ["core", m.kernel, m.gadget]
          snaps
          [f, ⟨.configure, "core", {}, [4]⟩,
           { fk with waits := [0] }, ⟨.configure, m.kernel, {}, [1]⟩,
           { fg with waits := [2] }, ⟨.configure, m.gadget, {}, [3]⟩]
          [0, 2, 4, 1, 3, 5] 5 with
      | error e => rw [htr] at hb; cases hb
      | ok p4 =>
      rw [htr] at hb
      obtain ⟨a4, ts4, l4⟩ := p4
      dsimp only at hb
      obtain ⟨ex, ex2, ha4, hts4⟩ := trailingPhase_extends htr
      obtain ⟨lastTs, _, hA, hTs⟩ := finishPhase_ok_inv hb
      subst ha4 hts4 hA hTs
      refine ⟨fun hh => absurd hh hgne,
        fun _ => ⟨⟨f, by simp, hfop, hfname.trans hcsname, hfwaits⟩,
        ⟨{ fk with waits := [0] }, by simp, hkop, hkname.trans hksname, rfl⟩,
        ⟨{ fg with waits := [2] }, by simp, hgop, hgname.trans hgsname, rfl⟩,
        by simp, by simp, by simp,
        ⟨ex2 ++ [([f, ⟨.configure, "core", {}, [4]⟩, { fk with waits := [0] },
           ⟨.configure, m.kernel, {}, [1]⟩, { fg with waits := [2] },
           ⟨.configure, m.gadget, {}, [3]⟩] ++ ex).length], by simp⟩⟩⟩

/-- C5 witness: with kernel `pc-kernel` named by the model — a manifest
lacking it fails, and on the full example manifest the configure chain is
wired as claimed (core configure waits on the gadget install, kernel configure
waits on the core configure, gadget configure waits on the kernel configure,
and the chain runs installs first, then the configure block in order). -/
theorem c5_kernel_ordering_witness :
    (∃ e t, (populateStateFromSeedImpl
        (sampleCW true (sampleModel "pc-kernel" "pc" ["hello-world"] true)
          [sampleSnap "core"])).1 = .error (e, t)) ∧
    (∃ a ts, (populateStateFromSeedImpl
        (sampleCW true (sampleModel "pc-kernel" "pc" ["hello-world"] true)
          [sampleSnap "core", sampleSnap "pc-kernel", sampleSnap "pc",
           sampleSnap "hello-world"])).1 = .ok (a, ts) ∧
       a.get? 1 = some ⟨.configure, "core", {}, [4]⟩ ∧
       a.get? 3 = some ⟨.configure, "pc-kernel", {}, [1]⟩ ∧
       a.get? 5 = some ⟨.configure, "pc", {}, [3]⟩ ∧
       ∃ rest, ts = 0 :: 2 :: 4 :: 1 :: 3 :: 5 :: rest) := by
  constructor
  · exact (c5_kernel_ordering
      (sampleCW true (sampleModel "pc-kernel" "pc" ["hello-world"] true)
        [sampleSnap "core"])
      (sampleModel "pc-kernel" "pc" ["hello-world"] true)
      [⟨"my-brand", "my-model"⟩] [sampleSnap "core"]
      (Or.inr rfl) rfl rfl rfl (by decide)).1 (by decide)
  · have h := ((c5_kernel_ordering
      (sampleCW true (sampleModel "pc-kernel" "pc" ["hello-world"] true)
        [sampleSnap "core", sampleSnap "pc-kernel", sampleSnap "pc",
         sampleSnap "hello-world"])
      (sampleModel "pc-kernel" "pc" ["hello-world"] true)
      [⟨"my-brand", "my-model"⟩]
      [sampleSnap "core", sampleSnap "pc-kernel", sampleSnap "pc",
       sampleSnap "hello-world"]
      (Or.inr rfl) rfl rfl rfl (by decide)).2
      [⟨.install, "core", ⟨false, false, true, false⟩, []⟩,
       ⟨.configure, "core", {}, [4]⟩,
       ⟨.install, "pc-kernel", ⟨false, false, true, false⟩, [0]⟩,
       ⟨.configure, "pc-kernel", {}, [1]⟩,
       ⟨.install, "pc", ⟨false, false, true, false⟩, [2]⟩,
       ⟨.configure, "pc", {}, [3]⟩,
       ⟨.install, "hello-world", ⟨false, false, false, true⟩, [5]⟩,
       ⟨.markSeeded, "", {}, [6]⟩]
      [0, 2, 4, 1, 3, 5, 6, 7] rfl).2 (by decide)
    exact ⟨_, _, rfl, h.2.2.2.1, h.2.2.2.2.1, h.2.2.2.2.2.1, h.2.2.2.2.2.2⟩

/-! ### C10: flag discipline of install fragments -/

theorem trailingFlags_required (req : String → Bool) (n : String) :
    (trailingFlags req n).required = req n := by
  unfold trailingFlags
  by_cases h : req n <;> simp [h]

theorem trailingFlags_skip (req : String → Bool) (n : String) :
    (trailingFlags req n).skipConfigure = false := by
  unfold trailingFlags
  by_cases h : req n <;> simp [h]

/-- The trailing loop preserves the flag discipline: every fragment it adds is
an install of a name outside the already-seeded set (hence non-foundational,
when the already set covers the foundational names) flagged by the required
set only. -/
theorem trailingPhase_preserves (w : CWorld) (m : Model) (alr : List String)
    (halr : ∀ n, foundationalName m n → alr.contains n = true) :
    ∀ (snaps : List SeedSnap) (a : List Frag) (ts : List Nat) (last : Nat)
      {a' : List Frag} {ts' : List Nat} {l' : Nat},
      (∀ f ∈ a, installFlagsOK m f) →
      trailingPhase w (requiredSet m) alr snaps a ts last = .ok (a', ts', l') →
      ∀ f ∈ a', installFlagsOK m f := by
  intro snaps
  induction snaps with
  | nil =>
    intro a ts last a' ts' l' hpre h
    rw [trailingPhase] at h
    injection h with h2
    injection h2 with h3 h4
    subst h3
    exact hpre
  | cons sn rest ih =>
    intro a ts last a' ts' l' hpre h
    rw [trailingPhase] at h
    split at h
    · exact ih a ts last hpre h
    · rename_i hcont
      cases hstep : trailingStep w (requiredSet m) sn a ts last with
      | error e => rw [hstep] at h; cases h
      | ok p =>
      rw [hstep] at h
      obtain ⟨a2, ts2, l2⟩ := p
      dsimp only at h
      obtain ⟨f, pred, hinst, hget, ha2, hts2, hl2⟩ := trailingStep_ok_inv hstep
      subst ha2 hts2 hl2
      refine ih _ _ _ ?_ h
      intro g hg
      rcases List.mem_append.mp hg with hg | hg
      · exact hpre g hg
      · simp only [List.mem_singleton] at hg
        subst hg
        obtain ⟨hop, hname, _, hskip, hreq⟩ := installSeedSnap_ok_shape hinst
        intro _
        constructor
        · intro hfound
          have : foundationalName m sn.name := by
            have h2 : ({ f with waits := [pred] } : Frag).name = sn.name := hname
            rwa [h2] at hfound
          exact absurd (halr _ this) hcont
        · intro _
          constructor
          · show f.flags.required = requiredSet m ({ f with waits := [pred] } : Frag).name
            have h2 : ({ f with waits := [pred] } : Frag).name = sn.name := hname
            rw [h2, hreq, trailingFlags_required]
          · show f.flags.skipConfigure = false
            rw [hskip, trailingFlags_skip]

/-- C10: in every successful graph construction, the fragments installing
core, the model's kernel or the model's gadget carry `SkipConfigure` and never
`Required` — even when the model's required list names them — while every
other install fragment (the trailing-loop installs) carries `Required` exactly
per the model's required set and never `SkipConfigure`. -/
theorem c10_flags (w : CWorld) (m : Model) (snaps : List SeedSnap)
    (a : List Frag) (ts : List Nat)
    (hb : buildGraph w m snaps = .ok (a, ts)) :
    ∀ f ∈ a, installFlagsOK m f := by
  unfold buildGraph at hb
  cases hcore : corePhase w snaps with
  | error e => rw [hcore] at hb; cases hb
  | ok st0 =>
  rw [hcore] at hb
  dsimp only at hb
  cases hkp : kernelPhase w m snaps st0 0 with
  | error e => rw [hkp] at hb; cases hb
  | ok p1 =>
  rw [hkp] at hb
  obtain ⟨st1, last1⟩ := p1
  dsimp only at hb
  rcases corePhase_ok_inv hcore with ⟨hsnil, hst0⟩ | ⟨hsne, cs, cf, hlc, hinstc, hst0⟩
  · -- empty manifest: kernel and gadget must be skipped, then the splice
    -- phase panics, contradicting success
    subst hst0
    rcases kernelPhase_ok_inv hkp with ⟨hk0, hst1, hlast1⟩ |
      ⟨_, ks, _, _, _, hlk, _⟩
    · subst hst1 hlast1
      cases hgp : gadgetPhase w m snaps ⟨[], [], [], []⟩ 0 with
      | error e => rw [hgp] at hb; cases hb
      | ok p2 =>
      rw [hgp] at hb
      obtain ⟨st2, last2⟩ := p2
      dsimp only at hb
      rcases gadgetPhase_ok_inv hgp with ⟨hg0, hst2, hlast2⟩ |
        ⟨_, gs, _, _, _, hlg, _⟩
      · subst hst2 hlast2
        rw [show splicePhase ⟨[], [], [], []⟩ 0 = .error (.panicIndex, []) from
          rfl] at hb
        cases hb
      · rw [hsnil] at hlg
        simp [lookupSeeding] at hlg
    · rw [hsnil] at hlk
      simp [lookupSeeding] at hlk
  · subst hst0
    obtain ⟨hcop, hcname, hcwaits, hcskip, hcreq⟩ := installSeedSnap_ok_shape hinstc
    have hcsname : cs.name = "core" := lookupSeeding_name hlc
    have hcoreOK : installFlagsOK m cf := by
      intro _
      constructor
      · intro _
        exact ⟨hcreq, hcskip⟩
      · intro hnf
        exact absurd (Or.inl (hcname.trans hcsname)) hnf
    rcases kernelPhase_ok_inv hkp with ⟨hk0, hst1, hlast1⟩ |
      ⟨hkne, ks, fk, pred, cpred, hlk, hinstk, hgetp, hgetc, hst1, hlast1⟩
    · -- no kernel
      subst hst1 hlast1
      cases hgp : gadgetPhase w m snaps
          ⟨[cf, ⟨.configure, "core", {}, []⟩], [0], [1], ["core"]⟩ 0 with
      | error e => rw [hgp] at hb; cases hb
      | ok p2 =>
      rw [hgp] at hb
      obtain ⟨st2, last2⟩ := p2
      dsimp only at hb
      rcases gadgetPhase_ok_inv hgp with ⟨hg0, hst2, hlast2⟩ |
        ⟨hgne, gs, fg, pred2, cpred2, hlg, hinstg, hgetp2, hgetc2, hst2, hlast2⟩
      · -- no kernel, no gadget
        subst hst2 hlast2
        have hsp : splicePhase
            ⟨[cf, ⟨.configure, "core", {}, []⟩], [0], [1], ["core"]⟩ 0 =
            .ok (⟨[cf, ⟨.configure, "core", {}, [0]⟩], [0, 1], [1], ["core"]⟩,
                 1) := by
          simp [splicePhase, arenaWait]
        rw [hsp] at hb
        dsimp only at hb
        cases htr : trailingPhase w (requiredSet m) ["core"] snaps
            [cf, ⟨.configure, "core", {}, [0]⟩] [0, 1] 1 with
        | error e => rw [htr] at hb; cases hb
        | ok p4 =>
        rw [htr] at hb
        obtain ⟨a4, ts4, l4⟩ := p4
        dsimp only at hb
        have halr : ∀ n, foundationalName m n → (["core"] : List String).contains n = true := by
          intro n hn
          rcases hn with rfl | ⟨hne, rfl⟩ | ⟨hne, rfl⟩
          · simp
          · exact absurd hk0 hne
          · exact absurd hg0 hne
        have hpre : ∀ f ∈ [cf, ⟨.configure, "core", {}, [0]⟩], installFlagsOK m f := by
          intro f hf
          rcases List.mem_cons.mp hf with rfl | hf
          · exact hcoreOK
          · simp only [List.mem_singleton] at hf
            subst hf
            intro hop
            cases hop
        have h4 := trailingPhase_preserves w m ["core"] halr snaps _ _ _ hpre htr
        obtain ⟨lastTs, _, hA, _⟩ := finishPhase_ok_inv hb
        subst hA
        intro f hf
        rcases List.mem_append.mp hf with hf | hf
        · exact h4 f hf
        · simp only [List.mem_singleton] at hf
          subst hf
          intro hop
          cases hop
      · -- no kernel, gadget present
        simp only at hgetp2 hgetc2
        obtain rfl : pred2 = 0 := by simpa using hgetp2.symm
        obtain rfl : cpred2 = 1 := by simpa using hgetc2.symm
        obtain ⟨hgop, hgname, hgwaits, hgskip, hgreq⟩ := installSeedSnap_ok_shape hinstg
        have hgsname : gs.name = m.gadget := lookupSeeding_name hlg
        subst hst2 hlast2
        simp only [List.cons_append, List.nil_append, List.singleton_append,
          List.length_cons, List.length_nil, Nat.zero_add, Nat.add_zero,
          Nat.reduceAdd] at hb
        have hsp : splicePhase
            ⟨[cf, ⟨.configure, "core", {}, []⟩,
              { fg with waits := [0] }, ⟨.configure, m.gadget, {}, [1]⟩],
             [0, 2], [1, 3], ["core", m.gadget]⟩ 1 =
            .ok (⟨[cf, ⟨.configure, "core", {}, [2]⟩,
                   { fg with waits := [0] }, ⟨.configure, m.gadget, {}, [1]⟩],
                  [0, 2, 1, 3], [1, 3], ["core", m.gadget]⟩, 3) := by
          simp [splicePhase, arenaWait]
        rw [hsp] at hb
        dsimp only at hb
        cases htr : trailingPhase w (requiredSet m) ["core", m.gadget] snaps
            [cf, ⟨.configure, "core", {}, [2]⟩,
             { fg with waits := [0] }, ⟨.configure, m.gadget, {}, [1]⟩]
            [0, 2, 1, 3] 3 with
        | error e => rw [htr] at hb; cases hb
        | ok p4 =>
        rw [htr] at hb
        obtain ⟨a4, ts4, l4⟩ := p4
        dsimp only at hb
        have halr : ∀ n, foundationalName m n →
            (["core", m.gadget] : List String).contains n = true := by
          intro n hn
          rcases hn with rfl | ⟨hne, rfl⟩ | ⟨hne, rfl⟩
          · simp
          · exact absurd hk0 hne
          · simp
        have hgadOK : installFlagsOK m { fg with waits := [0] } := by
          intro _
          constructor
          · intro _
            exact ⟨hgreq, hgskip⟩
          · intro hnf
            exact absurd (Or.inr (Or.inr ⟨hgne, hgname.trans hgsname⟩)) hnf
        have hpre : ∀ f ∈ [cf, ⟨.configure, "core", {}, [2]⟩,
            { fg with waits := [0] }, ⟨.configure, m.gadget, {}, [1]⟩],
            installFlagsOK m f := by
          intro f hf
          rcases List.mem_cons.mp hf with rfl | hf
          · exact hcoreOK
          rcases List.mem_cons.mp hf with rfl | hf
          · intro hop; cases hop
          rcases List.mem_cons.mp hf with rfl | hf
          · exact hgadOK
          simp only [List.mem_singleton] at hf
          subst hf
          intro hop
          cases hop
        have h4 := trailingPhase_preserves w m ["core", m.gadget] halr snaps
          _ _ _ hpre htr
        obtain ⟨lastTs, _, hA, _⟩ := finishPhase_ok_inv hb
        subst hA
        intro f hf
        rcases List.mem_append.mp hf with hf | hf
        · exact h4 f hf
        · simp only [List.mem_singleton] at hf
          subst hf
          intro hop
          cases hop
    · -- kernel present
      simp only at hgetp hgetc
      obtain rfl : pred = 0 := by simpa using hgetp.symm
      obtain rfl : cpred = 1 := by simpa using hgetc.symm
      obtain ⟨hkop, hkname, hkwaits, hkskip, hkreq⟩ := installSeedSnap_ok_shape hinstk
      have hksname : ks.name = m.kernel := lookupSeeding_name hlk
      have hkerOK : installFlagsOK m { fk with waits := [0] } := by
        intro _
        constructor
        · intro _
          exact ⟨hkreq, hkskip⟩
        · intro hnf
          exact absurd (Or.inr (Or.inl ⟨hkne, hkname.trans hksname⟩)) hnf
      subst hst1 hlast1
      simp only [List.cons_append, List.nil_append, List.singleton_append,
        List.length_cons, List.length_nil, Nat.zero_add, Nat.add_zero,
        Nat.reduceAdd] at hb
      cases hgp : gadgetPhase w m snaps
          ⟨[cf, ⟨.configure, "core", {}, []⟩,
            { fk with waits := [0] }, ⟨.configure, m.kernel, {}, [1]⟩],
           [0, 2], [1, 3], ["core", m.kernel]⟩ 1 with
      | error e => rw [hgp] at hb; cases hb
      | ok p2 =>
      rw [hgp] at hb
      obtain ⟨st2, last2⟩ := p2
      dsimp only at hb
      rcases gadgetPhase_ok_inv hgp with ⟨hg0, hst2, hlast2⟩ |
        ⟨hgne, gs, fg, pred2, cpred2, hlg, hinstg, hgetp2, hgetc2, hst2, hlast2⟩
      · -- kernel present, no gadget
        subst hst2 hlast2
        have hsp : splicePhase
            ⟨[cf, ⟨.configure, "core", {}, []⟩,
              { fk with waits := [0] }, ⟨.configure, m.kernel, {}, [1]⟩],
             [0, 2], [1, 3], ["core", m.kernel]⟩ 1 =
            .ok (⟨[cf, ⟨.configure, "core", {}, [2]⟩,
                   { fk with waits := [0] }, ⟨.configure, m.kernel, {}, [1]⟩],
                  [0, 2, 1, 3], [1, 3], ["core", m.kernel]⟩, 3) := by
          simp [splicePhase, arenaWait]
        rw [hsp] at hb
        dsimp only at hb
        cases htr : trailingPhase w (requiredSet m) ["core", m.kernel] snaps
            [cf, ⟨.configure, "core", {}, [2]⟩,
             { fk with waits := [0] }, ⟨.configure, m.kernel, {}, [1]⟩]
            [0, 2, 1, 3] 3 with
        | error e => rw [htr] at hb; cases hb
        | ok p4 =>
        rw [htr] at hb
        obtain ⟨a4, ts4, l4⟩ := p4
        dsimp only at hb
        have halr : ∀ n, foundationalName m n →
            (["core", m.kernel] : List String).contains n = true := by
          intro n hn
          rcases hn with rfl | ⟨hne, rfl⟩ | ⟨hne, rfl⟩
          · simp
          · simp
          · exact absurd hg0 hne
        have hpre : ∀ f ∈ [cf, ⟨.configure, "core", {}, [2]⟩,
            { fk with waits := [0] }, ⟨.configure, m.kernel, {}, [1]⟩],
            installFlagsOK m f := by
          intro f hf
          rcases List.mem_cons.mp hf with rfl | hf
          · exact hcoreOK
          rcases List.mem_cons.mp hf with rfl | hf
          · intro hop; cases hop
          rcases List.mem_cons.mp hf with rfl | hf
          · exact hkerOK
          simp only [List.mem_singleton] at hf
          subst hf
          intro hop
          cases hop
        have h4 := trailingPhase_preserves w m ["core", m.kernel] halr snaps
          _ _ _ hpre htr
        obtain ⟨lastTs, _, hA, _⟩ := finishPhase_ok_inv hb
        subst hA
        intro f hf
        rcases List.mem_append.mp hf with hf | hf
        · exact h4 f hf
        · simp only [List.mem_singleton] at hf
          subst hf
          intro hop
          cases hop
      · -- kernel and gadget present
        simp only [List.cons_append, List.nil_append, List.singleton_append,
          List.length_cons, List.length_nil, Nat.zero_add, Nat.add_zero,
          Nat.reduceAdd] at hgetp2 hgetc2 hst2 hlast2
        obtain rfl : pred2 = 2 := by simpa using hgetp2.symm
        obtain rfl : cpred2 = 3 := by simpa using hgetc2.symm
        obtain ⟨hgop, hgname, hgwaits, hgskip, hgreq⟩ := installSeedSnap_ok_shape hinstg
        have hgsname : gs.name = m.gadget := lookupSeeding_name hlg
        have hgadOK : installFlagsOK m { fg with waits := [2] } := by
          intro _
          constructor
          · intro _
            exact ⟨hgreq, hgskip⟩
          · intro hnf
            exact absurd (Or.inr (Or.inr ⟨hgne, hgname.trans hgsname⟩)) hnf
        subst hst2 hlast2
        have hsp : splicePhase
            ⟨[cf, ⟨.configure, "core", {}, []⟩,
              { fk with waits := [0] }, ⟨.configure, m.kernel, {}, [1]⟩,
              { fg with waits := [2] }, ⟨.configure, m.gadget, {}, [3]⟩],
             [0, 2, 4], [1, 3, 5], ["core", m.kernel, m.gadget]⟩ 2 =
            .ok (⟨[cf, ⟨.configure, "core", {}, [4]⟩,
                   { fk with waits := [0] }, ⟨.configure, m.kernel, {}, [1]⟩,
                   { fg with waits := [2] }, ⟨.configure, m.gadget, {}, [3]⟩],
                  [0, 2, 4, 1, 3, 5], [1, 3, 5],
                  ["core", m.kernel, m.gadget]⟩, 5) := by
          simp [splicePhase, arenaWait]
        rw [hsp] at hb
        dsimp only at hb
        cases htr : trailingPhase w (requiredSet m)
            ["core", m.kernel, m.gadget] snaps
            [cf, ⟨.configure, "core", {}, [4]⟩,
             { fk with waits := [0] }, ⟨.configure, m.kernel, {}, [1]⟩,
             { fg with waits := [2] }, ⟨.configure, m.gadget, {}, [3]⟩]
            [0, 2, 4, 1, 3, 5] 5 with
        | error e => rw [htr] at hb; cases hb
        | ok p4 =>
        rw [htr] at hb
        obtain ⟨a4, ts4, l4⟩ := p4
        dsimp only at hb
        have halr : ∀ n, foundationalName m n →
            (["core", m.kernel, m.gadget] : List String).contains n = true := by
          intro n hn
          rcases hn with rfl | ⟨hne, rfl⟩ | ⟨hne, rfl⟩
          · simp
          · simp
          · simp
        have hpre : ∀ f ∈ [cf, ⟨.configure, "core", {}, [4]⟩,
            { fk with waits := [0] }, ⟨.configure, m.kernel, {}, [1]⟩,
            { fg with waits := [2] }, ⟨.configure, m.gadget, {}, [3]⟩],
            installFlagsOK m f := by
          intro f hf
          rcases List.mem_cons.mp hf with rfl | hf
          · exact hcoreOK
          rcases List.mem_cons.mp hf with rfl | hf
          · intro hop; cases hop
          rcases List.mem_cons.mp hf with rfl | hf
          · exact hkerOK
          rcases List.mem_cons.mp hf with rfl | hf
          · intro hop; cases hop
          rcases List.mem_cons.mp hf with rfl | hf
          · exact hgadOK
          simp only [List.mem_singleton] at hf
          subst hf
          intro hop
          cases hop
        have h4 := trailingPhase_preserves w m ["core", m.kernel, m.gadget]
          halr snaps _ _ _ hpre htr
        obtain ⟨lastTs, _, hA, _⟩ := finishPhase_ok_inv hb
        subst hA
        intro f hf
        rcases List.mem_append.mp hf with hf | hf
        · exact h4 f hf
        · simp only [List.mem_singleton] at hf
          subst hf
          intro hop
          cases hop

/-- C10 witness: in the compiled example graph, the foundational kernel
install (although `pc-kernel` could be listed as required) carries only the
configuration-suppression flag, and the trailing `hello-world` install carries
the required flag. -/
theorem c10_flags_witness :
    installFlagsOK (sampleModel "pc-kernel" "pc" ["pc-kernel", "hello-world"] true)
      ⟨.install, "pc-kernel", ⟨false, false, true, false⟩, [0]⟩ ∧
    installFlagsOK (sampleModel "pc-kernel" "pc" ["pc-kernel", "hello-world"] true)
      ⟨.install, "hello-world", ⟨false, false, false, true⟩, [5]⟩ := by
  have h := c10_flags
    (sampleCW true (sampleModel "pc-kernel" "pc" ["pc-kernel", "hello-world"] true)
      [sampleSnap "core", sampleSnap "pc-kernel", sampleSnap "pc",
       sampleSnap "hello-world"])
    (sampleModel "pc-kernel" "pc" ["pc-kernel", "hello-world"] true)
    [sampleSnap "core", sampleSnap "pc-kernel", sampleSnap "pc",
     sampleSnap "hello-world"]
    [⟨.install, "core", ⟨false, false, true, false⟩, []⟩,
     ⟨.configure, "core", {}, [4]⟩,
     ⟨.install, "pc-kernel", ⟨false, false, true, false⟩, [0]⟩,
     ⟨.configure, "pc-kernel", {}, [1]⟩,
     ⟨.install, "pc", ⟨false, false, true, false⟩, [2]⟩,
     ⟨.configure, "pc", {}, [3]⟩,
     ⟨.install, "hello-world", ⟨false, false, false, true⟩, [5]⟩,
     ⟨.markSeeded, "", {}, [6]⟩]
    [0, 2, 4, 1, 3, 5, 6, 7] rfl
  exact ⟨h _ (by decide), h _ (by decide)⟩

end Firstboot
